import Mathlib

/-!
# geoipupdate: configuration loading and the local database writer

A shallow embedding of

* `pkg/geoipupdate/database`: the `Writer` interface, `ZeroMD5`, and the
  `LocalFileWriter` behind it (contract taken from the design document and
  the package tests), over an explicit file-system state;
* `pkg/geoipupdate/config.go`: `Config`, the flag options and `NewConfig`.

Go strings are modelled as Lean `String`s (valid UTF-8 text), Go `int` as
`Int` with an explicit 64-bit range check where `strconv.Atoi` enforces one,
byte streams as lists of naturals (each read modulo 256).
-/

set_option autoImplicit false

/-- Equality of results is decidable when it is on errors and on values. -/
instance instDecidableEqExcept {ε α : Type} [DecidableEq ε] [DecidableEq α] :
    DecidableEq (Except ε α)
  | .ok a, .ok b =>
    if h : a = b then isTrue (congrArg Except.ok h)
    else isFalse (fun h' => h (Except.ok.inj h'))
  | .error a, .error b =>
    if h : a = b then isTrue (congrArg Except.error h)
    else isFalse (fun h' => h (Except.error.inj h'))
  | .ok _, .error _ => isFalse (fun h' => Except.noConfusion h')
  | .error _, .ok _ => isFalse (fun h' => Except.noConfusion h')

namespace database

/-! ## MD5 (RFC 1321), the digest `crypto/md5` computes -/

/-- Per-round additive constants `floor(2^32 * |sin (i+1)|)`. -/
def md5K : List Nat := [
  0xd76aa478, 0xe8c7b756, 0x242070db, 0xc1bdceee,
  0xf57c0faf, 0x4787c62a, 0xa8304613, 0xfd469501,
  0x698098d8, 0x8b44f7af, 0xffff5bb1, 0x895cd7be,
  0x6b901122, 0xfd987193, 0xa679438e, 0x49b40821,
  0xf61e2562, 0xc040b340, 0x265e5a51, 0xe9b6c7aa,
  0xd62f105d, 0x02441453, 0xd8a1e681, 0xe7d3fbc8,
  0x21e1cde6, 0xc33707d6, 0xf4d50d87, 0x455a14ed,
  0xa9e3e905, 0xfcefa3f8, 0x676f02d9, 0x8d2a4c8a,
  0xfffa3942, 0x8771f681, 0x6d9d6122, 0xfde5380c,
  0xa4beea44, 0x4bdecfa9, 0xf6bb4b60, 0xbebfbc70,
  0x289b7ec6, 0xeaa127fa, 0xd4ef3085, 0x04881d05,
  0xd9d4d039, 0xe6db99e5, 0x1fa27cf8, 0xc4ac5665,
  0xf4292244, 0x432aff97, 0xab9423a7, 0xfc93a039,
  0x655b59c3, 0x8f0ccc92, 0xffeff47d, 0x85845dd1,
  0x6fa87e4f, 0xfe2ce6e0, 0xa3014314, 0x4e0811a1,
  0xf7537e82, 0xbd3af235, 0x2ad7d2bb, 0xeb86d391]

/-- Per-round left-rotation amounts. -/
def md5S : List Nat := [
  7, 12, 17, 22, 7, 12, 17, 22, 7, 12, 17, 22, 7, 12, 17, 22,
  5, 9, 14, 20, 5, 9, 14, 20, 5, 9, 14, 20, 5, 9, 14, 20,
  4, 11, 16, 23, 4, 11, 16, 23, 4, 11, 16, 23, 4, 11, 16, 23,
  6, 10, 15, 21, 6, 10, 15, 21, 6, 10, 15, 21, 6, 10, 15, 21]

/-- Rotate a 32-bit word left by `c` bits. -/
def rotl32 (x c : Nat) : Nat :=
  ((x <<< c) ||| (x >>> (32 - c))) % 2 ^ 32

/-- Bitwise complement of a 32-bit word. -/
def not32 (x : Nat) : Nat := (x % 2 ^ 32) ^^^ 0xffffffff

/-- The `n` low bytes of `x`, least significant first. -/
def leBytes : Nat → Nat → List Nat
  | 0, _ => []
  | n + 1, x => (x % 256) :: leBytes n (x / 256)

/-- Little-endian value of a list of bytes. -/
def leWord : List Nat → Nat
  | [] => 0
  | b :: bs => b % 256 + 256 * leWord bs

/-- Message padding: a `0x80` byte, zeros up to 56 modulo 64, then the bit
length as a 64-bit little-endian integer. -/
def md5Pad (msg : List Nat) : List Nat :=
  msg.map (· % 256) ++ [0x80] ++ List.replicate ((119 - msg.length % 64) % 64) 0
    ++ leBytes 8 ((8 * msg.length) % 2 ^ 64)

/-- The sixteen little-endian words of a 64-byte block. -/
def md5Words (block : List Nat) : List Nat :=
  (List.range 16).map fun j => leWord ((block.drop (4 * j)).take 4)

/-- One of the 64 operations on the working state `(a, b, c, d)`. -/
def md5Step (m : List Nat) (st : Nat × Nat × Nat × Nat) (i : Nat) :
    Nat × Nat × Nat × Nat :=
  let a := st.1
  let b := st.2.1
  let c := st.2.2.1
  let d := st.2.2.2
  let f :=
    if i < 16 then (b &&& c) ||| (not32 b &&& d)
    else if i < 32 then (d &&& b) ||| (not32 d &&& c)
    else if i < 48 then b ^^^ c ^^^ d
    else c ^^^ (b ||| not32 d)
  let g :=
    if i < 16 then i
    else if i < 32 then (5 * i + 1) % 16
    else if i < 48 then (3 * i + 5) % 16
    else (7 * i) % 16
  let t := (f + a + md5K.getD i 0 + m.getD g 0) % 2 ^ 32
  (d, (b + rotl32 t (md5S.getD i 0)) % 2 ^ 32, b, c)

/-- Compress one 64-byte block into the chaining state. -/
def md5Block (st : Nat × Nat × Nat × Nat) (block : List Nat) :
    Nat × Nat × Nat × Nat :=
  let r := (List.range 64).foldl (md5Step (md5Words block)) st
  ((st.1 + r.1) % 2 ^ 32, (st.2.1 + r.2.1) % 2 ^ 32,
   (st.2.2.1 + r.2.2.1) % 2 ^ 32, (st.2.2.2 + r.2.2.2) % 2 ^ 32)

/-- Run the compression function over `n` consecutive 64-byte blocks. -/
def md5Blocks : Nat → Nat × Nat × Nat × Nat → List Nat → Nat × Nat × Nat × Nat
  | 0, st, _ => st
  | n + 1, st, bs => md5Blocks n (md5Block st (bs.take 64)) (bs.drop 64)

/-- The 16-byte MD5 digest of a byte stream. -/
def md5Sum (msg : List Nat) : List Nat :=
  let p := md5Pad msg
  let r := md5Blocks (p.length / 64) (0x67452301, 0xefcdab89, 0x98badcfe, 0x10325476) p
  leBytes 4 r.1 ++ leBytes 4 r.2.1 ++ leBytes 4 r.2.2.1 ++ leBytes 4 r.2.2.2

/-- Lower-case hexadecimal digit of a nibble. -/
def hexDigit (n : Nat) : Char :=
  ['0', '1', '2', '3', '4', '5', '6', '7', '8', '9', 'a', 'b', 'c', 'd', 'e', 'f'].getD n '0'

/-- Lower-case hexadecimal rendering of a byte string. -/
def hexEncode : List Nat → List Char
  | [] => []
  | b :: bs => hexDigit (b % 256 / 16) :: hexDigit (b % 16) :: hexEncode bs

/-- The MD5 digest of a byte stream as 32 lower-case hexadecimal digits. -/
def md5Hex (msg : List Nat) : String := String.mk (hexEncode (md5Sum msg))

/-- The bytes of an ASCII string. -/
def bytesOf (s : String) : List Nat := s.data.map Char.toNat

/-! ## The writer interface and the local file writer -/

/-- The value provided as an MD5 hash for a non-existent database
(`writer.go`). -/
def ZeroMD5 : String := "00000000000000000000000000000000"

/-- A stored file: its bytes and its modification time (nanoseconds since
the epoch). -/
structure File where
  content : List Nat
  modTime : Int
deriving DecidableEq

/-- The file system, as a map from paths to files. -/
abbrev FileSystem := String → Option File

/-- The file system with `f` stored at `path`. -/
def FileSystem.put (fs : FileSystem) (path : String) (f : File) : FileSystem :=
  fun p => if p = path then some f else fs p

/-- The file system with nothing stored at `path`. -/
def FileSystem.remove (fs : FileSystem) (path : String) : FileSystem :=
  fun p => if p = path then none else fs p

/-- The value a reader hands to the writer (fields as the package tests
build them); `reader` is the payload the stream yields. -/
structure ReadResult where
  reader : List Nat
  editionID : String
  oldHash : String
  newHash : String
  modifiedAt : Int

/-- Failures of the writer, by the taxonomy of the design document. -/
inductive WriteError where
  | IntegrityError
  | IOError
deriving DecidableEq

/-- Modelled from the spec: `LocalFileWriter`, whose source file is not part of
the tree; the fields are the three arguments the tests pass to
`NewLocalFileWriter`. -/
structure LocalFileWriter where
  dir : String
  preserveFileTime : Bool
  verbose : Bool

/-- Modelled from the spec: `NewLocalFileWriter`, taking the directory, the
preserve-file-times flag and the verbose flag as in the tests. -/
def NewLocalFileWriter (databaseDir : String) (preserveFileTime verbose : Bool) :
    LocalFileWriter :=
  { dir := databaseDir, preserveFileTime := preserveFileTime, verbose := verbose }

/-- Modelled from the spec: `getFilePath`, the deterministic per-edition path
under the configured directory. -/
def LocalFileWriter.getFilePath (w : LocalFileWriter) (editionID : String) : String :=
  w.dir ++ "/" ++ editionID

/-- Modelled from the spec: the case-insensitive comparison of two digests. -/
def equalFold (a b : String) : Bool :=
  a.data.map Char.toLower == b.data.map Char.toLower

/-- What the operating system does during one `Write`: the wall-clock time,
and which file-system operations fail. -/
structure WriteEnv where
  now : Int
  createFails : Bool
  copyFails : Bool
  renameFails : Bool
  chtimesFails : Bool

/-- Modelled from the spec: `LocalFileWriter.Write`. The stream is copied to a
temporary file while its MD5 digest is computed; on a digest that does not
case-insensitively equal `newHash` the temporary file is discarded and the
write fails with `IntegrityError`; otherwise the temporary file is renamed over
the destination, and with preserve-file-times the modification time is set to
`modifiedAt`. Returns the outcome and the file system afterwards. -/
def LocalFileWriter.Write (w : LocalFileWriter) (env : WriteEnv) (fs : FileSystem)
    (result : ReadResult) : Except WriteError Unit × FileSystem :=
  let path := w.getFilePath result.editionID
  let tmp := path ++ ".temporary"
  if env.createFails then (.error .IOError, fs)
  else if env.copyFails then (.error .IOError, fs.remove tmp)
  else
    let fs1 := fs.put tmp { content := result.reader, modTime := env.now }
    if !equalFold (md5Hex result.reader) result.newHash then
      (.error .IntegrityError, fs1.remove tmp)
    else if env.renameFails then (.error .IOError, fs1.remove tmp)
    else
      let fs2 := (fs1.remove tmp).put path { content := result.reader, modTime := env.now }
      if w.preserveFileTime then
        if env.chtimesFails then (.error .IOError, fs2)
        else (.ok (), fs2.put path { content := result.reader, modTime := result.modifiedAt })
      else (.ok (), fs2)

/-- Modelled from the spec: `LocalFileWriter.GetHash`. A missing file gives the
sentinel, a file that cannot be read gives `IOError`, otherwise the digest of
the stored bytes is returned. -/
def LocalFileWriter.GetHash (w : LocalFileWriter) (readFails : Bool) (fs : FileSystem)
    (editionID : String) : Except WriteError String :=
  match fs (w.getFilePath editionID) with
  | none => .ok ZeroMD5
  | some f => if readFails then .error .IOError else .ok (md5Hex f.content)

/-- A run in which no file-system operation fails, at wall-clock time `now`. -/
def WriteEnv.healthy (now : Int) : WriteEnv :=
  { now := now, createFails := false, copyFails := false, renameFails := false,
    chtimesFails := false }

/-- The empty file system. -/
def FileSystem.empty : FileSystem := fun _ => none

end database

namespace geoipupdate

/-! ## Library functions used by `config.go` -/

/-- White space as `unicode.IsSpace` defines it. -/
def isSpace (c : Char) : Bool :=
  let n := c.toNat
  (0x09 ≤ n && n ≤ 0x0d) || n == 0x20 || n == 0x85 || n == 0xa0 || n == 0x1680 ||
    (0x2000 ≤ n && n ≤ 0x200a) || n == 0x2028 || n == 0x2029 || n == 0x202f ||
    n == 0x205f || n == 0x3000

/-- The list without its trailing white space. -/
def trimRight : List Char → List Char
  | [] => []
  | c :: cs =>
    match trimRight cs with
    | [] => if isSpace c then [] else [c]
    | r => c :: r

/-- Leading and trailing white space removed (`strings.TrimSpace`). -/
def trimSpace (s : List Char) : List Char :=
  trimRight (s.dropWhile isSpace)

/-- Scanning for `strings.Fields`; `cur` is the field being read, reversed. -/
def fieldsAux : List Char → List Char → List String
  | [], cur => if cur.isEmpty then [] else [String.mk cur.reverse]
  | c :: cs, cur =>
    if isSpace c then
      if cur.isEmpty then fieldsAux cs [] else String.mk cur.reverse :: fieldsAux cs []
    else fieldsAux cs (c :: cur)

/-- The maximal runs of non-space characters (`strings.Fields`). -/
def fields (s : List Char) : List String := fieldsAux s []

/-- Concatenation with a separator (`strings.Join`). -/
def join : List String → String → String
  | [], _ => ""
  | [a], _ => a
  | a :: b :: rest, sep => a ++ sep ++ join (b :: rest) sep

/-- Line splitting for `bufio.ScanLines`, before the carriage return is
dropped; `cur` is the line being read, reversed. A final line needs no
newline, and a trailing newline starts no further line. -/
def scanLinesAux : List Char → List Char → List (List Char)
  | [], cur => if cur.isEmpty then [] else [cur.reverse]
  | c :: cs, cur =>
    if c = '\n' then cur.reverse :: scanLinesAux cs [] else scanLinesAux cs (c :: cur)

/-- The raw lines of a file, in order. -/
def scanLines (content : String) : List (List Char) := scanLinesAux content.data []

/-- One trailing carriage return removed (`dropCR` of `bufio`). -/
def dropCR (line : List Char) : List Char :=
  match line.reverse with
  | '\r' :: rest => rest.reverse
  | _ => line

/-- The largest token `bufio.Scanner` buffers (`bufio.MaxScanTokenSize`). -/
def maxScanTokenSize : Nat := 64 * 1024

/-- A raw line the scanner cannot buffer: the scan stops with `ErrTooLong`. -/
def tooLong (line : List Char) : Bool :=
  decide (maxScanTokenSize ≤ (String.mk line).utf8ByteSize)

/-- The value of a non-empty string of decimal digits. -/
def parseDigits : List Char → Nat → Option Nat
  | [], acc => some acc
  | c :: cs, acc =>
    if '0' ≤ c ∧ c ≤ '9' then parseDigits cs (10 * acc + (c.toNat - '0'.toNat)) else none

/-- Decimal integer parsing, `strconv.Atoi` with a 64-bit `int`: an optional
sign, then at least one digit and digits only, and a value in
`[-2^63, 2^63 - 1]`. -/
def Atoi (s : String) : Option Int :=
  let body (neg : Bool) (ds : List Char) : Option Int :=
    if ds.isEmpty then none
    else
      match parseDigits ds 0 with
      | none => none
      | some n =>
        if neg then (if n ≤ 2 ^ 63 then some (-(n : Int)) else none)
        else (if n < 2 ^ 63 then some (n : Int) else none)
  match s.data with
  | '-' :: ds => body true ds
  | '+' :: ds => body false ds
  | ds => body false ds

/-- Whether the path starts with a `.` element. -/
def isDotElem : List Char → Bool
  | ['.'] => true
  | '.' :: '/' :: _ => true
  | _ => false

/-- Whether the path starts with a `..` element. -/
def isDotDotElem : List Char → Bool
  | ['.', '.'] => true
  | '.' :: '.' :: '/' :: _ => true
  | _ => false

/-- Where a `..` element cuts the output: from `w`, back to the previous
separator but not below `dotdot`. -/
def backtrack (out : List Char) (dotdot : Nat) : Nat → Nat
  | 0 => 0
  | w + 1 =>
    if w + 1 > dotdot ∧ out.getD (w + 1) '/' ≠ '/' then backtrack out dotdot w else w + 1

/-- The main loop of `filepath.Clean` on Unix: `path` is what is left to read,
`out` what has been written, `dotdot` the length below which `..` cannot
backtrack. Each round consumes at least one character of `path`. -/
def cleanLoop (rooted : Bool) : Nat → List Char → List Char → Nat → List Char
  | 0, _, out, _ => out
  | _ + 1, [], out, _ => out
  | fuel + 1, c :: rest, out, dotdot =>
    if c = '/' then cleanLoop rooted fuel rest out dotdot
    else if isDotElem (c :: rest) then cleanLoop rooted fuel rest out dotdot
    else if isDotDotElem (c :: rest) then
      if out.length > dotdot then
        cleanLoop rooted fuel (rest.drop 1)
          (out.take (backtrack out dotdot (out.length - 1))) dotdot
      else if !rooted then
        let out1 := (if out.length > 0 then out ++ ['/'] else out) ++ ['.', '.']
        cleanLoop rooted fuel (rest.drop 1) out1 out1.length
      else cleanLoop rooted fuel (rest.drop 1) out dotdot
    else
      let out1 :=
        if (rooted && out.length != 1) || (!rooted && out.length != 0) then out ++ ['/']
        else out
      cleanLoop rooted fuel (rest.dropWhile (· != '/'))
        (out1 ++ c :: rest.takeWhile (· != '/')) dotdot

/-- The shortest equivalent path, as `filepath.Clean` computes it on Unix. -/
def filepathClean (path : String) : String :=
  match path.data with
  | [] => "."
  | c :: rest =>
    let rooted := c == '/'
    let out :=
      if rooted then cleanLoop true (rest.length + 1) rest ['/'] 1
      else cleanLoop false (rest.length + 1) (c :: rest) [] 0
    if out.isEmpty then "." else String.mk out

/-- Two path elements joined and cleaned, empty elements ignored
(`filepath.Join` with two arguments). -/
def filepathJoin (a b : String) : String :=
  if a ≠ "" then filepathClean (a ++ "/" ++ b)
  else if b ≠ "" then filepathClean b
  else ""

/-- User name and password of a URL (`url.Userinfo`). -/
structure Userinfo where
  username : String
  password : String
  passwordSet : Bool
deriving DecidableEq

/-- The fields of `url.URL` that `parseProxy` reads or writes; `Rest` stands
for all the others. -/
structure URL where
  Scheme : String
  User : Option Userinfo
  Host : String
  Rest : String
deriving DecidableEq

/-- Library and build-time values that `config.go` takes from outside the
package. -/
structure Lib where
  /-- The value of `vars.DefaultDatabaseDirectory`. -/
  DefaultDatabaseDirectory : String
  /-- The function `time.ParseDuration`, in nanoseconds; `none` on error. -/
  ParseDuration : String → Option Int
  /-- The function `url.Parse`; `none` on error. -/
  urlParse : String → Option URL
  /-- The function `strings.ToLower`. -/
  ToLower : String → String

/-! ## `config.go` -/

/-- A parsed configuration file (`Config`). `RetryFor` is in nanoseconds. -/
structure Config where
  AccountID : Int
  DatabaseDirectory : String
  EditionIDs : List String
  LicenseKey : String
  LockFile : String
  PreserveFileTimes : Bool
  Parallelism : Int
  Proxy : Option URL
  RetryFor : Int
  URL : String
  Verbose : Bool
deriving DecidableEq

/-- The errors `NewConfig`, `parseProxy` and the flag options return, one
constructor for each error message of the source. -/
inductive ConfigError where
  | openingFile
  | invalidFormat (lineNumber : Nat)
  | multipleTimes (key : String)
  | invalidAccountID
  | preserveFileTimes
  | invalidDuration (value : String)
  | invalidParallelism (value : String)
  | parallelismNotPositive (parallelism : Int)
  | unknownOption (lineNumber : Nat)
  | readingFile
  | editionIDsRequired
  | accountIDRequired
  | licenseKeyRequired
  | applyingFlag (inner : ConfigError)
  | negativeParallelism (i : Int)
  | unsupportedProxyType (scheme : String)
  | parsingProxyURL
  | proxyUserPasswordMalformed
  | invalidCredentials
deriving DecidableEq

/-- An override of a configuration by a command-line flag: the type `Option`
of the source, renamed since Lean has an `Option` of its own. -/
abbrev ConfigOption := Config → Except ConfigError Config

/-- `WithParallelism`: sets `Parallelism` when `i` is positive, fails when it
is negative. -/
def WithParallelism (i : Int) : ConfigOption := fun c =>
  if i < 0 then .error (.negativeParallelism i)
  else if i > 0 then .ok { c with Parallelism := i }
  else .ok c

/-- `WithDatabaseDirectory`: sets `DatabaseDirectory` when `dir` is not
empty. -/
def WithDatabaseDirectory (dir : String) : ConfigOption := fun c =>
  if dir ≠ "" then .ok { c with DatabaseDirectory := filepathClean dir }
  else .ok c

/-- `WithVerbose`: sets `Verbose`. -/
def WithVerbose (val : Bool) : ConfigOption := fun c =>
  .ok { c with Verbose := val }

/-- The options the package exports. -/
inductive IsFlagOption : ConfigOption → Prop where
  | parallelism (i : Int) : IsFlagOption (WithParallelism i)
  | databaseDirectory (dir : String) : IsFlagOption (WithDatabaseDirectory dir)
  | verbose (val : Bool) : IsFlagOption (WithVerbose val)

/-- A letter as `[a-z]` matches it under `(?i)`: an ASCII letter, or one of
the two characters that case-fold to one (U+017F to `s`, U+212A to `k`). -/
def isSchemeAlpha (c : Char) : Bool :=
  c.isAlpha || c.toNat == 0x17f || c.toNat == 0x212a

/-- A character of the class `[a-z0-9+\-.]` under `(?i)`. -/
def isSchemeChar (c : Char) : Bool :=
  isSchemeAlpha c || c.isDigit || c == '+' || c == '-' || c == '.'

/-- The first group of `schemeRE.FindStringSubmatch`, for the pattern
`(?i)\A([a-z][a-z0-9+\-.]*)://`; `none` when there is no match. -/
def schemeREFind (s : String) : Option String :=
  match s.data with
  | [] => none
  | c :: rest =>
    if isSchemeAlpha c then
      match rest.dropWhile isSchemeChar with
      | ':' :: '/' :: '/' :: _ => some (String.mk (c :: rest.takeWhile isSchemeChar))
      | _ => none
    else none

/-- The two parts of `strings.SplitN(s, ":", 2)`, `none` when `s` has no
colon; `cur` is the first part being read, reversed. -/
def splitColon : List Char → List Char → Option (String × String)
  | [], _ => none
  | c :: cs, cur =>
    if c = ':' then some (String.mk cur.reverse, String.mk cs) else splitColon cs (c :: cur)

/-- `parseProxy`: the proxy URL of the `Proxy` and `ProxyUserPassword`
options, `none` for no proxy. -/
def parseProxy (lib : Lib) (proxy proxyUserPassword : String) :
    Except ConfigError (Option URL) :=
  if proxy = "" then .ok none
  else
    let withScheme : Except ConfigError String :=
      match schemeREFind proxy with
      | none => .ok ("http://" ++ proxy)
      | some m =>
        let scheme := lib.ToLower m
        if scheme ≠ "http" ∧ scheme ≠ "https" ∧ scheme ≠ "socks5" then
          .error (.unsupportedProxyType scheme)
        else .ok proxy
    match withScheme with
    | .error e => .error e
    | .ok proxyURL =>
      match lib.urlParse proxyURL with
      | none => .error .parsingProxyURL
      | some u0 =>
        let u := if u0.Host.data.contains ':' then u0 else { u0 with Host := u0.Host ++ ":1080" }
        if u.User.isSome then .ok (some u)
        else if proxyUserPassword = "" then .ok (some u)
        else
          match splitColon proxyUserPassword.data [] with
          | none => .error .proxyUserPasswordMalformed
          | some (user, password) =>
            let info : Userinfo := { username := user, password := password, passwordSet := true }
            .ok (some { u with User := some info })

/-- The variables of the scanning loop of `NewConfig`. -/
structure ParseState where
  config : Config
  keysSeen : List String
  proxy : String
  proxyUserPassword : String
  lineNumber : Nat
deriving DecidableEq

/-- The `switch key` statement of the scanning loop, after the key has been
recorded in `keysSeen`. -/
def switchKey (lib : Lib) (st : ParseState) (lineNumber : Nat) (key value : String) :
    Except ConfigError ParseState :=
  if key = "AccountID" ∨ key = "UserId" then
    match Atoi value with
    | none => .error .invalidAccountID
    | some accountID =>
      .ok { st with config := { st.config with AccountID := accountID },
                    keysSeen := "UserId" :: "AccountID" :: st.keysSeen }
  else if key = "DatabaseDirectory" then
    .ok { st with config := { st.config with DatabaseDirectory := filepathClean value } }
  else if key = "EditionIDs" ∨ key = "ProductIds" then
    .ok { st with config := { st.config with EditionIDs := fields value.data },
                  keysSeen := "ProductIds" :: "EditionIDs" :: st.keysSeen }
  else if key = "Host" then
    .ok { st with config := { st.config with URL := "https://" ++ value } }
  else if key = "LicenseKey" then
    .ok { st with config := { st.config with LicenseKey := value } }
  else if key = "LockFile" then
    .ok { st with config := { st.config with LockFile := filepathClean value } }
  else if key = "PreserveFileTimes" then
    if value ≠ "0" ∧ value ≠ "1" then .error .preserveFileTimes
    else if value = "1" then
      .ok { st with config := { st.config with PreserveFileTimes := true } }
    else .ok st
  else if key = "Proxy" then .ok { st with proxy := value }
  else if key = "ProxyUserPassword" then .ok { st with proxyUserPassword := value }
  else if key = "Protocol" ∨ key = "SkipHostnameVerification" ∨
      key = "SkipPeerVerification" then .ok st
  else if key = "RetryFor" then
    match lib.ParseDuration value with
    | none => .error (.invalidDuration value)
    | some dur =>
      if dur < 0 then .error (.invalidDuration value)
      else .ok { st with config := { st.config with RetryFor := dur } }
  else if key = "Parallelism" then
    match Atoi value with
    | none => .error (.invalidParallelism value)
    | some parallelism =>
      if parallelism ≤ 0 then .error (.parallelismNotPositive parallelism)
      else .ok { st with config := { st.config with Parallelism := parallelism } }
  else .error (.unknownOption lineNumber)

/-- The body of the scanning loop of `NewConfig` for one line of the file. -/
def parseLine (lib : Lib) (st : ParseState) (text : List Char) :
    Except ConfigError ParseState :=
  let lineNumber := st.lineNumber + 1
  let st1 := { st with lineNumber := lineNumber }
  match trimSpace text with
  | [] => .ok st1
  | c :: line =>
    if c = '#' then .ok st1
    else
      match fields (c :: line) with
      | [] => .error (.invalidFormat lineNumber)
      | [_] => .error (.invalidFormat lineNumber)
      | key :: f1 :: frest =>
        if key ∈ st1.keysSeen then .error (.multipleTimes key)
        else
          switchKey lib { st1 with keysSeen := key :: st1.keysSeen } lineNumber key
            (join (f1 :: frest) " ")

/-- The scanning loop of `NewConfig` over the raw lines of the file. A line
the scanner cannot buffer ends the loop, and `scanner.Err()` then reports the
failure. -/
def parseLines (lib : Lib) : List (List Char) → ParseState → Except ConfigError ParseState
  | [], st => .ok st
  | raw :: rest, st =>
    if tooLong raw then .error .readingFile
    else
      match parseLine lib st (dropCR raw) with
      | .error e => .error e
      | .ok st1 => parseLines lib rest st1

/-- The loop over `flagOptions` of `NewConfig`. -/
def applyOptions : List ConfigOption → Config → Except ConfigError Config
  | [], c => .ok c
  | option :: rest, c =>
    match option c with
    | .error e => .error (.applyingFlag e)
    | .ok c1 => applyOptions rest c1

/-- The configuration `NewConfig` starts from. -/
def defaultConfig (lib : Lib) : Config :=
  { AccountID := 0
    DatabaseDirectory := filepathClean lib.DefaultDatabaseDirectory
    EditionIDs := []
    LicenseKey := ""
    LockFile := ""
    PreserveFileTimes := false
    Parallelism := 1
    Proxy := none
    RetryFor := 5 * 60000000000
    URL := "https://updates.maxmind.com"
    Verbose := false }

/-- The default of `LockFile`, set by `NewConfig` after the overrides: the
file `.geoipupdate.lock` of the database directory. -/
def defaultLockFile (c : Config) : Config :=
  if c.LockFile = "" then
    { c with LockFile := filepathJoin c.DatabaseDirectory ".geoipupdate.lock" }
  else c

/-- The variables of the scanning loop as `NewConfig` initialises them. -/
def initState (lib : Lib) : ParseState :=
  { config := defaultConfig lib, keysSeen := [], proxy := "", proxyUserPassword := "",
    lineNumber := 0 }

/-- `NewConfig`: parses the configuration file at `path` of the file system
`files` (a map from paths to file contents) and applies the flag options. -/
def NewConfig (lib : Lib) (files : String → Option String) (path : String)
    (flagOptions : List ConfigOption) : Except ConfigError Config :=
  match files (filepathClean path) with
  | none => .error .openingFile
  | some content =>
    match parseLines lib (scanLines content) (initState lib) with
    | .error e => .error e
    | .ok st =>
      if "EditionIDs" ∉ st.keysSeen then .error .editionIDsRequired
      else if "AccountID" ∉ st.keysSeen then .error .accountIDRequired
      else if "LicenseKey" ∉ st.keysSeen then .error .licenseKeyRequired
      else
        match applyOptions flagOptions st.config with
        | .error e => .error e
        | .ok c1 =>
          let c2 := defaultLockFile c1
          match parseProxy lib st.proxy st.proxyUserPassword with
          | .error e => .error e
          | .ok proxy =>
            let c3 := { c2 with Proxy := proxy }
            if (c3.AccountID = 0 ∨ c3.AccountID = 999999) ∧ c3.LicenseKey = "000000000000" then
              .error .invalidCredentials
            else .ok c3

/-- A library for examples: the default directory of upstream builds and
stand-ins that accept no duration and no URL. -/
def exampleLib : Lib :=
  { DefaultDatabaseDirectory := "/usr/local/share/GeoIP"
    ParseDuration := fun _ => none
    urlParse := fun _ => none
    ToLower := fun s => String.mk (s.data.map Char.toLower) }

/-- A file system holding one file. -/
def singleFile (path content : String) : String → Option String :=
  fun p => if p = path then some content else none

/-! ## What a configuration file says, line by line -/

/-- The key and the value of a line of the file: its first field and the
others joined by single spaces; `none` for a blank line, a comment, and a line
of one field. -/
def keyValue (text : List Char) : Option (String × String) :=
  match trimSpace text with
  | [] => none
  | c :: line =>
    if c = '#' then none
    else
      match fields (c :: line) with
      | key :: f1 :: frest => some (key, join (f1 :: frest) " ")
      | _ => none

/-- The key-value lines among some raw lines, in order. -/
def entriesOf (raws : List (List Char)) : List (String × String) :=
  raws.filterMap fun raw => keyValue (dropCR raw)

/-- The key-value lines of a file, in order. -/
def fileEntries (content : String) : List (String × String) :=
  entriesOf (scanLines content)

/-- The keys a line with key `key` records in `keysSeen`: itself, and both
spellings when it is one of an aliased pair. -/
def marks (key k : String) : Prop :=
  k = key ∨
    ((key = "AccountID" ∨ key = "UserId") ∧ (k = "AccountID" ∨ k = "UserId")) ∨
    ((key = "EditionIDs" ∨ key = "ProductIds") ∧ (k = "EditionIDs" ∨ k = "ProductIds"))

/-- Whether the file has a line with this key. -/
def hasLine (content : String) (key : String) : Bool :=
  (fileEntries content).any fun kv => kv.1 == key

/-- The value of the last line with this key, if there is one. -/
def lastValue : List (String × String) → String → Option String
  | [], _ => none
  | kv :: rest, key =>
    match lastValue rest key with
    | some v => some v
    | none => if kv.1 = key then some kv.2 else none

/-- The value the file gives to a key (no accepted file gives two). -/
def fileValue (content : String) (key : String) : Option String :=
  lastValue (fileEntries content) key

/-- The effect of one accepted line on the variables the later checks read. -/
def LineEffect (st st1 : ParseState) (kv : Option (String × String)) : Prop :=
  (∀ k, k ∈ st1.keysSeen → k ∈ st.keysSeen ∨ ∃ e, kv = some e ∧ marks e.1 k) ∧
  (∀ k, k ∈ st.keysSeen → k ∈ st1.keysSeen) ∧
  (∀ e, kv = some e → ∀ k, marks e.1 k → k ∈ st1.keysSeen) ∧
  ((∀ e, kv = some e → e.1 ≠ "Parallelism") →
    st1.config.Parallelism = st.config.Parallelism) ∧
  (1 ≤ st.config.Parallelism → 1 ≤ st1.config.Parallelism) ∧
  ((∀ e, kv = some e → e.1 ≠ "RetryFor") → st1.config.RetryFor = st.config.RetryFor) ∧
  ((∀ e, kv = some e → e.1 ≠ "PreserveFileTimes") →
    st1.config.PreserveFileTimes = st.config.PreserveFileTimes) ∧
  ((∀ e, kv = some e → e.1 ≠ "LockFile") → st1.config.LockFile = st.config.LockFile) ∧
  st1.config.DatabaseDirectory =
    (match kv with
     | some e => if e.1 = "DatabaseDirectory" then filepathClean e.2
                 else st.config.DatabaseDirectory
     | none => st.config.DatabaseDirectory)

/-- The effect of an accepted run of lines with key-value lines `es`. -/
def LinesEffect (st st1 : ParseState) (es : List (String × String)) : Prop :=
  (∀ k, k ∈ st1.keysSeen → k ∈ st.keysSeen ∨ ∃ e ∈ es, marks e.1 k) ∧
  (∀ k, k ∈ st.keysSeen → k ∈ st1.keysSeen) ∧
  (∀ e ∈ es, ∀ k, marks e.1 k → k ∈ st1.keysSeen) ∧
  ((∀ e ∈ es, e.1 ≠ "Parallelism") → st1.config.Parallelism = st.config.Parallelism) ∧
  (1 ≤ st.config.Parallelism → 1 ≤ st1.config.Parallelism) ∧
  ((∀ e ∈ es, e.1 ≠ "RetryFor") → st1.config.RetryFor = st.config.RetryFor) ∧
  ((∀ e ∈ es, e.1 ≠ "PreserveFileTimes") →
    st1.config.PreserveFileTimes = st.config.PreserveFileTimes) ∧
  ((∀ e ∈ es, e.1 ≠ "LockFile") → st1.config.LockFile = st.config.LockFile) ∧
  st1.config.DatabaseDirectory =
    (match lastValue es "DatabaseDirectory" with
     | some v => filepathClean v
     | none => st.config.DatabaseDirectory)

/-- A configuration file with the three mandatory options and a directory. -/
def exampleFile : String :=
  "# comment\nAccountID 42\nLicenseKey abc\nEditionIDs GeoLite2-City GeoLite2-Country\n" ++
    "DatabaseDirectory /tmp/db/\n"

/-- The configuration `NewConfig` makes of `exampleFile`. -/
def exampleConfig : Config :=
  { AccountID := 42
    DatabaseDirectory := "/tmp/db"
    EditionIDs := ["GeoLite2-City", "GeoLite2-Country"]
    LicenseKey := "abc"
    LockFile := "/tmp/db/.geoipupdate.lock"
    PreserveFileTimes := false
    Parallelism := 1
    Proxy := none
    RetryFor := 300000000000
    URL := "https://updates.maxmind.com"
    Verbose := false }

/-! ## Credentials, duplicate keys and file times, line by line -/

/-- The closure `WithParallelism(i)` returns, run on the configuration it is
given a pointer to: the configuration after the call, and the error returned
(`none` for `nil`). -/
def WithParallelism.call (i : Int) (c : Config) : Config × Option ConfigError :=
  if i < 0 then (c, some (.negativeParallelism i))
  else if i > 0 then ({ c with Parallelism := i }, none)
  else (c, none)

/-- The key of a line of the file: the first field of a line that is neither
blank nor a comment. -/
def lineKey (text : List Char) : Option String :=
  match trimSpace text with
  | [] => none
  | c :: line => if c = '#' then none else (fields (c :: line)).head?

/-- The keys among some raw lines, in order. -/
def keysOf (raws : List (List Char)) : List String :=
  raws.filterMap fun raw => lineKey (dropCR raw)

/-- The keys of the lines of a file, in order. -/
def fileKeys (content : String) : List String := keysOf (scanLines content)

/-- The value of the last account line, under either spelling of the key. -/
def lastAccount : List (String × String) → Option String
  | [] => none
  | kv :: rest =>
    match lastAccount rest with
    | some v => some v
    | none => if kv.1 = "AccountID" ∨ kv.1 = "UserId" then some kv.2 else none

/-- What one accepted line says about the credentials and the file times, and
that its key was not seen before. -/
def LineRecord (st st1 : ParseState) (kv : Option (String × String)) : Prop :=
  st1.config.LicenseKey =
    (match kv with
     | some e => if e.1 = "LicenseKey" then e.2 else st.config.LicenseKey
     | none => st.config.LicenseKey) ∧
  (match kv with
   | some e =>
     if e.1 = "AccountID" ∨ e.1 = "UserId" then Atoi e.2 = some st1.config.AccountID
     else st1.config.AccountID = st.config.AccountID
   | none => st1.config.AccountID = st.config.AccountID) ∧
  (∀ e, kv = some e → e.1 = "PreserveFileTimes" → e.2 = "0" ∨ e.2 = "1") ∧
  (st1.config.PreserveFileTimes = true ↔
    (st.config.PreserveFileTimes = true ∨ kv = some ("PreserveFileTimes", "1"))) ∧
  (∀ e, kv = some e → e.1 ∉ st.keysSeen)

/-- What an accepted run of lines with key-value lines `es` says about the
credentials and the file times, and that no key comes twice. -/
def LinesRecord (st st1 : ParseState) (es : List (String × String)) : Prop :=
  st1.config.LicenseKey =
    (match lastValue es "LicenseKey" with
     | some v => v
     | none => st.config.LicenseKey) ∧
  (match lastAccount es with
   | some v => Atoi v = some st1.config.AccountID
   | none => st1.config.AccountID = st.config.AccountID) ∧
  (∀ e ∈ es, e.1 = "PreserveFileTimes" → e.2 = "0" ∨ e.2 = "1") ∧
  (st1.config.PreserveFileTimes = true ↔
    (st.config.PreserveFileTimes = true ∨ ("PreserveFileTimes", "1") ∈ es)) ∧
  es.Pairwise (fun e e1 => ¬ marks e.1 e1.1) ∧
  (∀ e ∈ es, e.1 ∉ st.keysSeen)

/-- A configuration file with the placeholder credentials. -/
def placeholderFile : String :=
  "AccountID 999999\nLicenseKey 000000000000\nEditionIDs GeoLite2-City\n"

/-- The variables of the scanning loop after `placeholderFile`. -/
def placeholderState : ParseState :=
  { config :=
      { AccountID := 999999
        DatabaseDirectory := "/usr/local/share/GeoIP"
        EditionIDs := ["GeoLite2-City"]
        LicenseKey := "000000000000"
        LockFile := ""
        PreserveFileTimes := false
        Parallelism := 1
        Proxy := none
        RetryFor := 300000000000
        URL := "https://updates.maxmind.com"
        Verbose := false }
    keysSeen := ["ProductIds", "EditionIDs", "EditionIDs", "LicenseKey", "UserId", "AccountID",
      "AccountID"]
    proxy := ""
    proxyUserPassword := ""
    lineNumber := 3 }

end geoipupdate
namespace database

/-! ## Properties of the local file writer -/

theorem temporary_path_ne (p : String) : p ++ ".temporary" ≠ p := by
  intro h
  have hlen := congrArg String.length h
  rw [String.length_append] at hlen
  have : (".temporary" : String).length = 10 := by decide
  omega

theorem hexDigit_toLower (n : Nat) : (hexDigit n).toLower = hexDigit n := by
  unfold hexDigit
  by_cases h : n < 16
  · interval_cases n <;> decide
  · rw [List.getD_eq_default _ _ (by simpa using h)]; decide

theorem hexEncode_toLower (bs : List Nat) :
    (hexEncode bs).map Char.toLower = hexEncode bs := by
  induction bs with
  | nil => rfl
  | cons b bs ih => simp [hexEncode, hexDigit_toLower, ih]

theorem hexEncode_length (bs : List Nat) : (hexEncode bs).length = 2 * bs.length := by
  induction bs with
  | nil => rfl
  | cons b bs ih => simp [hexEncode, ih]; omega

theorem leBytes_length (n x : Nat) : (leBytes n x).length = n := by
  induction n generalizing x with
  | zero => rfl
  | succ n ih => simp [leBytes, ih]

theorem md5Hex_length (msg : List Nat) : (md5Hex msg).length = 32 := by
  simp [md5Hex, String.length, hexEncode_length, md5Sum, leBytes_length]

theorem md5Hex_toLower (msg : List Nat) :
    (md5Hex msg).data.map Char.toLower = (md5Hex msg).data := by
  simp [md5Hex, hexEncode_toLower]

theorem put_same (fs : FileSystem) (p : String) (f : File) : fs.put p f p = some f := by
  simp [FileSystem.put]

theorem put_other (fs : FileSystem) (p q : String) (f : File) (h : q ≠ p) :
    fs.put p f q = fs q := by
  simp [FileSystem.put, h]

theorem remove_other (fs : FileSystem) (p q : String) (h : q ≠ p) :
    fs.remove p q = fs q := by
  simp [FileSystem.remove, h]

/-- C1: when the MD5 digest of the payload differs from `newHash` even ignoring
letter case, `Write` returns an error and the edition's file is exactly what it
was before the call (absent if it was absent), whatever the writer, the
file system and the behaviour of the operating system. -/
theorem write_mismatch_fails_and_preserves (w : LocalFileWriter) (env : WriteEnv)
    (fs : FileSystem) (result : ReadResult)
    (h : equalFold (md5Hex result.reader) result.newHash = false) :
    (∃ e, (w.Write env fs result).1 = Except.error e) ∧
      (w.Write env fs result).2 (w.getFilePath result.editionID) =
        fs (w.getFilePath result.editionID) := by
  have hne : w.getFilePath result.editionID ≠ w.getFilePath result.editionID ++ ".temporary" :=
    fun e => temporary_path_ne _ e.symm
  unfold LocalFileWriter.Write
  by_cases h1 : env.createFails = true
  · simp [h1]
  · by_cases h2 : env.copyFails = true
    · simp [h1, h2, remove_other _ _ _ hne]
    · simp [h1, h2, h, remove_other _ _ _ hne, put_other _ _ _ _ hne]

set_option maxRecDepth 100000 in
theorem write_mismatch_fails_and_preserves_witness :
    equalFold (md5Hex (bytesOf "database content")) "badhash" = false ∧
    ((∃ e, ((NewLocalFileWriter "/tmp/gutest" true false).Write (WriteEnv.healthy 5)
        FileSystem.empty
        { reader := bytesOf "database content", editionID := "GeoIP2-City", oldHash := "",
          newHash := "badhash", modifiedAt := 1681130851000000000 }).1 = Except.error e) ∧
      ((NewLocalFileWriter "/tmp/gutest" true false).Write (WriteEnv.healthy 5)
        FileSystem.empty
        { reader := bytesOf "database content", editionID := "GeoIP2-City", oldHash := "",
          newHash := "badhash", modifiedAt := 1681130851000000000 }).2
        ((NewLocalFileWriter "/tmp/gutest" true false).getFilePath "GeoIP2-City") =
      FileSystem.empty ((NewLocalFileWriter "/tmp/gutest" true false).getFilePath "GeoIP2-City")) :=
  ⟨by decide, write_mismatch_fails_and_preserves _ _ _
    { reader := bytesOf "database content", editionID := "GeoIP2-City", oldHash := "",
      newHash := "badhash", modifiedAt := 1681130851000000000 } (by decide)⟩

/-- C2: for every writer and every edition with no stored file, `GetHash`
returns `ZeroMD5` and no error, whether or not reads would fail. -/
theorem getHash_missing_file (w : LocalFileWriter) (readFails : Bool) (fs : FileSystem)
    (editionID : String) (h : fs (w.getFilePath editionID) = none) :
    w.GetHash readFails fs editionID = Except.ok ZeroMD5 := by
  simp [LocalFileWriter.GetHash, h]

theorem getHash_missing_file_witness :
    FileSystem.empty ((NewLocalFileWriter "/tmp/gutest" false false).getFilePath "NewEdition")
        = none ∧
      (NewLocalFileWriter "/tmp/gutest" false false).GetHash true FileSystem.empty "NewEdition"
        = Except.ok ZeroMD5 :=
  ⟨rfl, getHash_missing_file _ true FileSystem.empty "NewEdition" rfl⟩

/-- C3: when `newHash` equals the MD5 hex digest of the payload up to letter
case and no file-system operation fails, `Write` returns no error and the
edition's file then holds exactly the payload bytes. -/
theorem write_match_succeeds (w : LocalFileWriter) (now : Int) (fs : FileSystem)
    (result : ReadResult)
    (h : equalFold (md5Hex result.reader) result.newHash = true) :
    (w.Write (WriteEnv.healthy now) fs result).1 = Except.ok () ∧
      ((w.Write (WriteEnv.healthy now) fs result).2 (w.getFilePath result.editionID)).map
        File.content = some result.reader := by
  unfold LocalFileWriter.Write
  cases hp : w.preserveFileTime <;> simp [WriteEnv.healthy, h, put_same]

set_option maxRecDepth 100000 in
theorem write_match_succeeds_witness :
    equalFold (md5Hex (bytesOf "database content")) "CFA36DDC8279B5483A5AA25E9A6151F4" = true ∧
    (((NewLocalFileWriter "/tmp/gutest" false false).Write (WriteEnv.healthy 5)
        FileSystem.empty
        { reader := bytesOf "database content", editionID := "GeoIP2-City", oldHash := "",
          newHash := "CFA36DDC8279B5483A5AA25E9A6151F4",
          modifiedAt := 1681130851000000000 }).1 = Except.ok () ∧
      (((NewLocalFileWriter "/tmp/gutest" false false).Write (WriteEnv.healthy 5)
        FileSystem.empty
        { reader := bytesOf "database content", editionID := "GeoIP2-City", oldHash := "",
          newHash := "CFA36DDC8279B5483A5AA25E9A6151F4",
          modifiedAt := 1681130851000000000 }).2
        ((NewLocalFileWriter "/tmp/gutest" false false).getFilePath "GeoIP2-City")).map
          File.content = some (bytesOf "database content")) :=
  ⟨by decide, write_match_succeeds _ 5 FileSystem.empty
    { reader := bytesOf "database content", editionID := "GeoIP2-City", oldHash := "",
      newHash := "CFA36DDC8279B5483A5AA25E9A6151F4", modifiedAt := 1681130851000000000 }
    (by decide)⟩

theorem hexDigit_mem (n : Nat) : hexDigit n ∈ "0123456789abcdef".data := by
  unfold hexDigit
  by_cases h : n < 16
  · interval_cases n <;> decide
  · rw [List.getD_eq_default _ _ (by simpa using h)]; decide

theorem hexEncode_mem (bs : List Nat) :
    ∀ c ∈ hexEncode bs, c ∈ "0123456789abcdef".data := by
  induction bs with
  | nil => intro c hc; cases hc
  | cons b bs ih =>
    intro c hc
    simp only [hexEncode, List.mem_cons] at hc
    rcases hc with rfl | rfl | hc
    · exact hexDigit_mem _
    · exact hexDigit_mem _
    · exact ih c hc

theorem write_ok_iff_stored (w : LocalFileWriter) (env : WriteEnv) (fs : FileSystem)
    (result : ReadResult) (h : (w.Write env fs result).1 = Except.ok ()) :
    equalFold (md5Hex result.reader) result.newHash = true ∧
      (w.Write env fs result).2 (w.getFilePath result.editionID) =
        some { content := result.reader,
               modTime := if w.preserveFileTime then result.modifiedAt else env.now } := by
  unfold LocalFileWriter.Write at h ⊢
  by_cases h1 : env.createFails = true
  · simp [h1] at h
  by_cases h2 : env.copyFails = true
  · simp [h1, h2] at h
  by_cases h3 : equalFold (md5Hex result.reader) result.newHash = true
  swap
  · simp [h1, h2, h3] at h
  by_cases h4 : env.renameFails = true
  · simp [h1, h2, h3, h4] at h
  by_cases h5 : w.preserveFileTime = true
  · by_cases h6 : env.chtimesFails = true
    · simp [h1, h2, h3, h4, h5, h6] at h
    · simp [h1, h2, h3, h4, h5, h6, put_same]
  · simp [h1, h2, h3, h4, h5, put_same]

set_option maxRecDepth 100000 in
/-- C4 as stated fails: after a successful `Write` of the payload
`database content` with its own digest as `newHash`, a `GetHash` whose read of
the stored file fails returns `IOError`, not the digest. -/
theorem write_getHash_read_failure :
    ((NewLocalFileWriter "/tmp/gutest" false false).Write (WriteEnv.healthy 5)
        FileSystem.empty
        { reader := bytesOf "database content", editionID := "GeoIP2-City", oldHash := "",
          newHash := "cfa36ddc8279b5483a5aa25e9a6151f4", modifiedAt := 0 }).1 = Except.ok () ∧
    (NewLocalFileWriter "/tmp/gutest" false false).GetHash true
      ((NewLocalFileWriter "/tmp/gutest" false false).Write (WriteEnv.healthy 5)
        FileSystem.empty
        { reader := bytesOf "database content", editionID := "GeoIP2-City", oldHash := "",
          newHash := "cfa36ddc8279b5483a5aa25e9a6151f4", modifiedAt := 0 }).2 "GeoIP2-City"
      = Except.error WriteError.IOError ∧
    (NewLocalFileWriter "/tmp/gutest" false false).GetHash true
      ((NewLocalFileWriter "/tmp/gutest" false false).Write (WriteEnv.healthy 5)
        FileSystem.empty
        { reader := bytesOf "database content", editionID := "GeoIP2-City", oldHash := "",
          newHash := "cfa36ddc8279b5483a5aa25e9a6151f4", modifiedAt := 0 }).2 "GeoIP2-City"
      ≠ Except.ok (md5Hex (bytesOf "database content")) := by
  decide

/-- C4, amended: after a successful `Write` of payload `p` for edition `e`,
`GetHash e`, provided its read of the stored file does not fail, returns with
no error the MD5 digest of `p` as 32 lower-case hexadecimal digits; that digest
equals `newHash` up to letter case, and equals it exactly if and only if
`newHash` is in lower case. -/
theorem write_getHash_roundtrip (w : LocalFileWriter) (env : WriteEnv) (fs : FileSystem)
    (result : ReadResult) (h : (w.Write env fs result).1 = Except.ok ()) :
    w.GetHash false (w.Write env fs result).2 result.editionID
        = Except.ok (md5Hex result.reader) ∧
      (md5Hex result.reader).length = 32 ∧
      (∀ c ∈ (md5Hex result.reader).data, c ∈ "0123456789abcdef".data) ∧
      equalFold (md5Hex result.reader) result.newHash = true ∧
      (md5Hex result.reader = result.newHash ↔
        result.newHash.data.map Char.toLower = result.newHash.data) := by
  obtain ⟨hm, hs⟩ := write_ok_iff_stored w env fs result h
  have hfold : (md5Hex result.reader).data = result.newHash.data.map Char.toLower := by
    have := hm
    simp only [equalFold, beq_iff_eq] at this
    rw [md5Hex_toLower] at this
    exact this
  refine ⟨?_, md5Hex_length _, ?_, hm, ?_⟩
  · simp [LocalFileWriter.GetHash, hs]
  · exact hexEncode_mem _
  · constructor
    · intro he
      rw [← he]
      exact md5Hex_toLower _
    · intro hl
      rw [hl] at hfold
      exact String.ext hfold

set_option maxRecDepth 100000 in
theorem write_getHash_roundtrip_witness :
    ((NewLocalFileWriter "/tmp/gutest" false false).Write (WriteEnv.healthy 5)
        FileSystem.empty
        { reader := bytesOf "database content", editionID := "GeoIP2-City", oldHash := "",
          newHash := "cfa36ddc8279b5483a5aa25e9a6151f4", modifiedAt := 0 }).1 = Except.ok () ∧
    (NewLocalFileWriter "/tmp/gutest" false false).GetHash false
      ((NewLocalFileWriter "/tmp/gutest" false false).Write (WriteEnv.healthy 5)
        FileSystem.empty
        { reader := bytesOf "database content", editionID := "GeoIP2-City", oldHash := "",
          newHash := "cfa36ddc8279b5483a5aa25e9a6151f4", modifiedAt := 0 }).2 "GeoIP2-City"
      = Except.ok (md5Hex (bytesOf "database content")) :=
  ⟨by decide, (write_getHash_roundtrip (NewLocalFileWriter "/tmp/gutest" false false)
    (WriteEnv.healthy 5) FileSystem.empty
    { reader := bytesOf "database content", editionID := "GeoIP2-City", oldHash := "",
      newHash := "cfa36ddc8279b5483a5aa25e9a6151f4", modifiedAt := 0 } (by decide)).1⟩

/-- C5: after a successful `Write`, the modification time of the edition's file
is `modifiedAt` for a writer created with preserve-file-times enabled, and the
wall-clock time of the write for a writer created with it disabled; in the
latter case it differs from `modifiedAt` whenever the two instants differ. -/
theorem write_timestamp_policy (dir : String) (preserve verbose : Bool) (env : WriteEnv)
    (fs : FileSystem) (result : ReadResult)
    (h : ((NewLocalFileWriter dir preserve verbose).Write env fs result).1 = Except.ok ()) :
    (((NewLocalFileWriter dir preserve verbose).Write env fs result).2
        ((NewLocalFileWriter dir preserve verbose).getFilePath result.editionID)).map
        File.modTime = some (if preserve then result.modifiedAt else env.now) ∧
      (preserve = false → env.now ≠ result.modifiedAt →
        (((NewLocalFileWriter dir preserve verbose).Write env fs result).2
          ((NewLocalFileWriter dir preserve verbose).getFilePath result.editionID)).map
          File.modTime ≠ some result.modifiedAt) := by
  obtain ⟨_, hs⟩ := write_ok_iff_stored _ env fs result h
  rw [hs]
  refine ⟨by simp [NewLocalFileWriter], ?_⟩
  intro hp hne
  subst hp
  simpa [NewLocalFileWriter] using hne

set_option maxRecDepth 100000 in
theorem write_timestamp_policy_witness :
    ((NewLocalFileWriter "/tmp/gutest" true false).Write (WriteEnv.healthy 1700000000000000000)
        FileSystem.empty
        { reader := bytesOf "database content", editionID := "GeoIP2-City", oldHash := "",
          newHash := "cfa36ddc8279b5483a5aa25e9a6151f4",
          modifiedAt := 1681130851000000000 }).1 = Except.ok () ∧
    (((NewLocalFileWriter "/tmp/gutest" true false).Write
        (WriteEnv.healthy 1700000000000000000) FileSystem.empty
        { reader := bytesOf "database content", editionID := "GeoIP2-City", oldHash := "",
          newHash := "cfa36ddc8279b5483a5aa25e9a6151f4",
          modifiedAt := 1681130851000000000 }).2
        ((NewLocalFileWriter "/tmp/gutest" true false).getFilePath "GeoIP2-City")).map
        File.modTime = some 1681130851000000000 :=
  ⟨by decide, (write_timestamp_policy "/tmp/gutest" true false
    (WriteEnv.healthy 1700000000000000000) FileSystem.empty
    { reader := bytesOf "database content", editionID := "GeoIP2-City", oldHash := "",
      newHash := "cfa36ddc8279b5483a5aa25e9a6151f4",
      modifiedAt := 1681130851000000000 } (by decide)).1⟩

end database

namespace geoipupdate

/-! ## Properties of `NewConfig` -/

/-- What one `switch key` round does to the variables the later checks read. -/
theorem switchKey_ok (lib : Lib) (st st1 : ParseState) (n : Nat) (key value : String)
    (h : switchKey lib st n key value = Except.ok st1) :
    (∀ k, k ∈ st1.keysSeen → k ∈ st.keysSeen ∨
        ((key = "AccountID" ∨ key = "UserId") ∧ (k = "AccountID" ∨ k = "UserId")) ∨
        ((key = "EditionIDs" ∨ key = "ProductIds") ∧ (k = "EditionIDs" ∨ k = "ProductIds"))) ∧
      (∀ k, k ∈ st.keysSeen → k ∈ st1.keysSeen) ∧
      (key ≠ "Parallelism" → st1.config.Parallelism = st.config.Parallelism) ∧
      (1 ≤ st.config.Parallelism → 1 ≤ st1.config.Parallelism) ∧
      (key ≠ "RetryFor" → st1.config.RetryFor = st.config.RetryFor) ∧
      (key ≠ "PreserveFileTimes" →
        st1.config.PreserveFileTimes = st.config.PreserveFileTimes) ∧
      (key ≠ "LockFile" → st1.config.LockFile = st.config.LockFile) ∧
      ((key = "AccountID" ∨ key = "UserId") →
        "AccountID" ∈ st1.keysSeen ∧ "UserId" ∈ st1.keysSeen) ∧
      ((key = "EditionIDs" ∨ key = "ProductIds") →
        "EditionIDs" ∈ st1.keysSeen ∧ "ProductIds" ∈ st1.keysSeen) ∧
      st1.config.DatabaseDirectory =
        (if key = "DatabaseDirectory" then filepathClean value
         else st.config.DatabaseDirectory) := by
  unfold switchKey at h
  by_cases h1 : key = "AccountID" ∨ key = "UserId"
  · rw [if_pos h1] at h
    cases hA : Atoi value with
    | none => rw [hA] at h; cases h
    | some a =>
      rw [hA] at h
      cases h
      rcases h1 with rfl | rfl <;> refine ⟨?_, ?_, ?_, ?_, ?_, ?_, ?_, ?_, ?_, ?_⟩ <;> simp <;> tauto
  rw [if_neg h1] at h
  by_cases h2 : key = "DatabaseDirectory"
  · rw [if_pos h2] at h
    cases h
    subst h2
    refine ⟨?_, ?_, ?_, ?_, ?_, ?_, ?_, ?_, ?_, ?_⟩ <;> simp
  rw [if_neg h2] at h
  by_cases h3 : key = "EditionIDs" ∨ key = "ProductIds"
  · rw [if_pos h3] at h
    cases h
    rcases h3 with rfl | rfl <;> refine ⟨?_, ?_, ?_, ?_, ?_, ?_, ?_, ?_, ?_, ?_⟩ <;> simp <;> tauto
  rw [if_neg h3] at h
  by_cases h4 : key = "Host"
  · rw [if_pos h4] at h
    cases h
    subst h4
    refine ⟨?_, ?_, ?_, ?_, ?_, ?_, ?_, ?_, ?_, ?_⟩ <;> simp
  rw [if_neg h4] at h
  by_cases h5 : key = "LicenseKey"
  · rw [if_pos h5] at h
    cases h
    subst h5
    refine ⟨?_, ?_, ?_, ?_, ?_, ?_, ?_, ?_, ?_, ?_⟩ <;> simp
  rw [if_neg h5] at h
  by_cases h6 : key = "LockFile"
  · rw [if_pos h6] at h
    cases h
    subst h6
    refine ⟨?_, ?_, ?_, ?_, ?_, ?_, ?_, ?_, ?_, ?_⟩ <;> simp
  rw [if_neg h6] at h
  by_cases h7 : key = "PreserveFileTimes"
  · rw [if_pos h7] at h
    subst h7
    by_cases hv : value ≠ "0" ∧ value ≠ "1"
    · rw [if_pos hv] at h; cases h
    rw [if_neg hv] at h
    by_cases hv1 : value = "1"
    · rw [if_pos hv1] at h
      cases h
      refine ⟨?_, ?_, ?_, ?_, ?_, ?_, ?_, ?_, ?_, ?_⟩ <;> simp
    · rw [if_neg hv1] at h
      cases h
      refine ⟨?_, ?_, ?_, ?_, ?_, ?_, ?_, ?_, ?_, ?_⟩ <;> simp
  rw [if_neg h7] at h
  by_cases h8 : key = "Proxy"
  · rw [if_pos h8] at h
    cases h
    subst h8
    refine ⟨?_, ?_, ?_, ?_, ?_, ?_, ?_, ?_, ?_, ?_⟩ <;> simp
  rw [if_neg h8] at h
  by_cases h9 : key = "ProxyUserPassword"
  · rw [if_pos h9] at h
    cases h
    subst h9
    refine ⟨?_, ?_, ?_, ?_, ?_, ?_, ?_, ?_, ?_, ?_⟩ <;> simp
  rw [if_neg h9] at h
  by_cases h10 : key = "Protocol" ∨ key = "SkipHostnameVerification" ∨
      key = "SkipPeerVerification"
  · rw [if_pos h10] at h
    cases h
    rcases h10 with rfl | rfl | rfl <;> refine ⟨?_, ?_, ?_, ?_, ?_, ?_, ?_, ?_, ?_, ?_⟩ <;> simp
  rw [if_neg h10] at h
  by_cases h11 : key = "RetryFor"
  · rw [if_pos h11] at h
    subst h11
    cases hD : lib.ParseDuration value with
    | none => rw [hD] at h; cases h
    | some dur =>
      rw [hD] at h
      dsimp only at h
      by_cases hneg : dur < 0
      · rw [if_pos hneg] at h; cases h
      · rw [if_neg hneg] at h
        cases h
        refine ⟨?_, ?_, ?_, ?_, ?_, ?_, ?_, ?_, ?_, ?_⟩ <;> simp
  rw [if_neg h11] at h
  by_cases h12 : key = "Parallelism"
  · rw [if_pos h12] at h
    subst h12
    cases hA : Atoi value with
    | none => rw [hA] at h; cases h
    | some p =>
      rw [hA] at h
      dsimp only at h
      by_cases hp : p ≤ 0
      · rw [if_pos hp] at h; cases h
      · rw [if_neg hp] at h
        cases h
        refine ⟨?_, ?_, ?_, ?_, ?_, ?_, ?_, ?_, ?_, ?_⟩ <;> simp
        intro _; omega
  · rw [if_neg h12] at h; cases h

/-- A successful round of the loop body, in terms of the key and value of the
line. -/
theorem parseLine_ok (lib : Lib) (st st1 : ParseState) (text : List Char)
    (h : parseLine lib st text = Except.ok st1) :
    (keyValue text = none ∧ st1 = { st with lineNumber := st.lineNumber + 1 }) ∨
    (∃ key value, keyValue text = some (key, value) ∧ key ∉ st.keysSeen ∧
      switchKey lib { st with lineNumber := st.lineNumber + 1, keysSeen := key :: st.keysSeen }
        (st.lineNumber + 1) key value = Except.ok st1) := by
  unfold parseLine at h
  unfold keyValue
  cases ht : trimSpace text with
  | nil =>
    rw [ht] at h
    cases h
    exact Or.inl ⟨rfl, rfl⟩
  | cons c line =>
    rw [ht] at h
    dsimp only at h ⊢
    by_cases hc : c = '#'
    · rw [if_pos hc] at h ⊢
      cases h
      exact Or.inl ⟨rfl, rfl⟩
    · rw [if_neg hc] at h ⊢
      cases hf : fields (c :: line) with
      | nil => rw [hf] at h; cases h
      | cons key rest =>
        cases rest with
        | nil => rw [hf] at h; cases h
        | cons f1 frest =>
          rw [hf] at h
          dsimp only at h ⊢
          by_cases hk : key ∈ st.keysSeen
          · rw [if_pos hk] at h; cases h
          · rw [if_neg hk] at h
            exact Or.inr ⟨key, _, rfl, hk, h⟩

theorem parseLine_effect (lib : Lib) (st st1 : ParseState) (text : List Char)
    (h : parseLine lib st text = Except.ok st1) : LineEffect st st1 (keyValue text) := by
  rcases parseLine_ok lib st st1 text h with ⟨hkv, rfl⟩ | ⟨key, value, hkv, _, hs⟩
  · rw [hkv]
    refine ⟨fun k hk => Or.inl hk, fun k hk => hk, ?_, fun _ => rfl, id, fun _ => rfl,
      fun _ => rfl, fun _ => rfl, rfl⟩
    intro e he; cases he
  · rw [hkv]
    obtain ⟨k1, k2, k3, k4, k5, k6, k7, k8, k9, k10⟩ := switchKey_ok lib _ st1 _ key value hs
    refine ⟨?_, ?_, ?_, ?_, k4, ?_, ?_, ?_, k10⟩
    · intro k hk
      rcases k1 k hk with hk | hk | hk
      · simp only [List.mem_cons] at hk
        rcases hk with rfl | hk
        · exact Or.inr ⟨_, rfl, Or.inl rfl⟩
        · exact Or.inl hk
      · exact Or.inr ⟨_, rfl, Or.inr (Or.inl hk)⟩
      · exact Or.inr ⟨_, rfl, Or.inr (Or.inr hk)⟩
    · intro k hk
      exact k2 k (List.mem_cons_of_mem _ hk)
    · intro e he k hm
      cases he
      rcases hm with rfl | ⟨hkey, rfl | rfl⟩ | ⟨hkey, rfl | rfl⟩
      · exact k2 _ (List.mem_cons_self _ _)
      · exact (k8 hkey).1
      · exact (k8 hkey).2
      · exact (k9 hkey).1
      · exact (k9 hkey).2
    · intro hne; exact k3 (hne _ rfl)
    · intro hne; exact k5 (hne _ rfl)
    · intro hne; exact k6 (hne _ rfl)
    · intro hne; exact k7 (hne _ rfl)

theorem linesEffect_nil (st : ParseState) : LinesEffect st st [] :=
  ⟨fun _ hk => Or.inl hk, fun _ hk => hk, fun _ he => absurd he (List.not_mem_nil _),
    fun _ => rfl, id, fun _ => rfl, fun _ => rfl, fun _ => rfl, rfl⟩

/-- Composition of the effect of a line without key and value with the effect
of the lines after it. -/
theorem linesEffect_skip (st st1 st2 : ParseState) (es : List (String × String))
    (h1 : LineEffect st st1 none) (h2 : LinesEffect st1 st2 es) : LinesEffect st st2 es := by
  obtain ⟨a1, a2, _, a4, a5, a6, a7, a8, a9⟩ := h1
  obtain ⟨b1, b2, b3, b4, b5, b6, b7, b8, b9⟩ := h2
  refine ⟨?_, fun k hk => b2 k (a2 k hk), b3, ?_, fun h => b5 (a5 h), ?_, ?_, ?_, ?_⟩
  · intro k hk
    rcases b1 k hk with hk | hk
    · rcases a1 k hk with hk | ⟨e, he, _⟩
      · exact Or.inl hk
      · cases he
    · exact Or.inr hk
  · intro h; rw [b4 h, a4 (fun e he => by cases he)]
  · intro h; rw [b6 h, a6 (fun e he => by cases he)]
  · intro h; rw [b7 h, a7 (fun e he => by cases he)]
  · intro h; rw [b8 h, a8 (fun e he => by cases he)]
  · rw [b9]; simp only at a9; rw [a9]

/-- Composition of the effect of a key-value line with the effect of the lines
after it. -/
theorem linesEffect_cons (st st1 st2 : ParseState) (e : String × String)
    (es : List (String × String))
    (h1 : LineEffect st st1 (some e)) (h2 : LinesEffect st1 st2 es) :
    LinesEffect st st2 (e :: es) := by
  obtain ⟨a1, a2, a3, a4, a5, a6, a7, a8, a9⟩ := h1
  obtain ⟨b1, b2, b3, b4, b5, b6, b7, b8, b9⟩ := h2
  refine ⟨?_, fun k hk => b2 k (a2 k hk), ?_, ?_, fun h => b5 (a5 h), ?_, ?_, ?_, ?_⟩
  · intro k hk
    rcases b1 k hk with hk | ⟨e1, he1, hm⟩
    · rcases a1 k hk with hk | ⟨e1, he1, hm⟩
      · exact Or.inl hk
      · cases he1
        exact Or.inr ⟨_, List.mem_cons_self _ _, hm⟩
    · exact Or.inr ⟨e1, List.mem_cons_of_mem _ he1, hm⟩
  · intro e1 he1 k hm
    rcases List.mem_cons.mp he1 with rfl | he1
    · exact b2 k (a3 _ rfl k hm)
    · exact b3 e1 he1 k hm
  · intro h
    rw [b4 (fun e1 he1 => h e1 (List.mem_cons_of_mem _ he1)),
      a4 (fun e1 he1 => by cases he1; exact h _ (List.mem_cons_self _ _))]
  · intro h
    rw [b6 (fun e1 he1 => h e1 (List.mem_cons_of_mem _ he1)),
      a6 (fun e1 he1 => by cases he1; exact h _ (List.mem_cons_self _ _))]
  · intro h
    rw [b7 (fun e1 he1 => h e1 (List.mem_cons_of_mem _ he1)),
      a7 (fun e1 he1 => by cases he1; exact h _ (List.mem_cons_self _ _))]
  · intro h
    rw [b8 (fun e1 he1 => h e1 (List.mem_cons_of_mem _ he1)),
      a8 (fun e1 he1 => by cases he1; exact h _ (List.mem_cons_self _ _))]
  · rw [b9]
    simp only at a9
    simp only [lastValue]
    cases hl : lastValue es "DatabaseDirectory" with
    | some v => rfl
    | none =>
      dsimp only
      rw [a9]
      by_cases hd : e.1 = "DatabaseDirectory"
      · rw [if_pos hd, if_pos hd]
      · rw [if_neg hd, if_neg hd]

/-- The effect of an accepted run of the scanning loop. -/
theorem parseLines_effect (lib : Lib) (raws : List (List Char)) :
    ∀ st st1 : ParseState, parseLines lib raws st = Except.ok st1 →
      LinesEffect st st1 (entriesOf raws) := by
  induction raws with
  | nil =>
    intro st st1 h
    simp only [parseLines] at h
    cases h
    exact linesEffect_nil st
  | cons raw rest ih =>
    intro st st1 h
    simp only [parseLines] at h
    by_cases hl : tooLong raw = true
    · rw [if_pos hl] at h; cases h
    rw [if_neg hl] at h
    cases hp : parseLine lib st (dropCR raw) with
    | error e => rw [hp] at h; cases h
    | ok st0 =>
      rw [hp] at h
      have h1 := parseLine_effect lib st st0 _ hp
      have h2 := ih st0 st1 h
      unfold entriesOf
      rw [List.filterMap_cons]
      cases hkv : keyValue (dropCR raw) with
      | none =>
        rw [hkv] at h1
        exact linesEffect_skip st st0 st1 _ h1 h2
      | some e =>
        rw [hkv] at h1
        exact linesEffect_cons st st0 st1 e _ h1 h2

theorem defaultLockFile_fields (c : Config) :
    (defaultLockFile c).AccountID = c.AccountID ∧
    (defaultLockFile c).LicenseKey = c.LicenseKey ∧
    (defaultLockFile c).DatabaseDirectory = c.DatabaseDirectory ∧
    (defaultLockFile c).Parallelism = c.Parallelism ∧
    (defaultLockFile c).RetryFor = c.RetryFor ∧
    (defaultLockFile c).PreserveFileTimes = c.PreserveFileTimes ∧
    (defaultLockFile c).LockFile =
      (if c.LockFile = "" then filepathJoin c.DatabaseDirectory ".geoipupdate.lock"
       else c.LockFile) := by
  unfold defaultLockFile
  by_cases h : c.LockFile = ""
  · simp only [if_pos h, and_self]
  · simp only [if_neg h, and_self]

/-- When `NewConfig` returns a configuration, and which. -/
theorem NewConfig_ok_iff (lib : Lib) (files : String → Option String) (path : String)
    (flagOptions : List ConfigOption) (c : Config) :
    NewConfig lib files path flagOptions = Except.ok c ↔
      ∃ content st c1 proxy,
        files (filepathClean path) = some content ∧
        parseLines lib (scanLines content) (initState lib) = Except.ok st ∧
        "EditionIDs" ∈ st.keysSeen ∧ "AccountID" ∈ st.keysSeen ∧ "LicenseKey" ∈ st.keysSeen ∧
        applyOptions flagOptions st.config = Except.ok c1 ∧
        parseProxy lib st.proxy st.proxyUserPassword = Except.ok proxy ∧
        ¬((c1.AccountID = 0 ∨ c1.AccountID = 999999) ∧ c1.LicenseKey = "000000000000") ∧
        c = { defaultLockFile c1 with Proxy := proxy } := by
  unfold NewConfig
  cases hf : files (filepathClean path) with
  | none => simp
  | some content =>
    dsimp only
    cases hp : parseLines lib (scanLines content) (initState lib) with
    | error e => simp [hp]
    | ok st =>
      dsimp only
      by_cases h1 : "EditionIDs" ∈ st.keysSeen
      swap
      · simp [hp, h1]
      by_cases h2 : "AccountID" ∈ st.keysSeen
      swap
      · simp [hp, h1, h2]
      by_cases h3 : "LicenseKey" ∈ st.keysSeen
      swap
      · simp [hp, h1, h2, h3]
      cases ha : applyOptions flagOptions st.config with
      | error e => simp [hp, h1, h2, h3, ha]
      | ok c1 =>
        cases hx : parseProxy lib st.proxy st.proxyUserPassword with
        | error e => simp [hp, h1, h2, h3, ha, hx]
        | ok proxy =>
          obtain ⟨d1, d2, -⟩ := defaultLockFile_fields c1
          simp only [hp, ha, hx, h1, h2, h3, not_true_eq_false, if_false, Option.some.injEq,
            Except.ok.injEq, exists_and_left, exists_eq_left', true_and, d1, d2]
          by_cases hc : (c1.AccountID = 0 ∨ c1.AccountID = 999999) ∧
              c1.LicenseKey = "000000000000"
          · rw [if_pos hc]
            simp [hc]
          · rw [if_neg hc]
            simp only [Except.ok.injEq]
            constructor
            · intro h; exact ⟨hc, h.symm⟩
            · intro h; exact h.2.symm

/-- The exported options leave every field but `Parallelism`,
`DatabaseDirectory` and `Verbose` alone, and keep `Parallelism` positive. -/
theorem applyOptions_flags (opts : List ConfigOption) :
    ∀ c c1 : Config, (∀ o ∈ opts, IsFlagOption o) → applyOptions opts c = Except.ok c1 →
      (1 ≤ c.Parallelism → 1 ≤ c1.Parallelism) ∧ c1.LockFile = c.LockFile ∧
      c1.AccountID = c.AccountID ∧ c1.LicenseKey = c.LicenseKey ∧
      c1.RetryFor = c.RetryFor ∧ c1.PreserveFileTimes = c.PreserveFileTimes := by
  induction opts with
  | nil =>
    intro c c1 _ h
    simp only [applyOptions] at h
    cases h
    exact ⟨id, rfl, rfl, rfl, rfl, rfl⟩
  | cons o rest ih =>
    intro c c1 hflags h
    simp only [applyOptions] at h
    have ho : IsFlagOption o := hflags o (List.mem_cons_self _ _)
    have hrest : ∀ o1 ∈ rest, IsFlagOption o1 := fun o1 h1 => hflags o1 (List.mem_cons_of_mem _ h1)
    cases hoc : o c with
    | error e => rw [hoc] at h; cases h
    | ok c0 =>
      rw [hoc] at h
      obtain ⟨i1, i2, i3, i4, i5, i6⟩ := ih c0 c1 hrest h
      have step : (1 ≤ c.Parallelism → 1 ≤ c0.Parallelism) ∧ c0.LockFile = c.LockFile ∧
          c0.AccountID = c.AccountID ∧ c0.LicenseKey = c.LicenseKey ∧
          c0.RetryFor = c.RetryFor ∧ c0.PreserveFileTimes = c.PreserveFileTimes := by
        cases ho with
        | parallelism i =>
          unfold WithParallelism at hoc
          by_cases hneg : i < 0
          · rw [if_pos hneg] at hoc; cases hoc
          · rw [if_neg hneg] at hoc
            by_cases hpos : i > 0
            · rw [if_pos hpos] at hoc
              cases hoc
              exact ⟨fun _ => hpos, rfl, rfl, rfl, rfl, rfl⟩
            · rw [if_neg hpos] at hoc
              cases hoc
              exact ⟨id, rfl, rfl, rfl, rfl, rfl⟩
        | databaseDirectory dir =>
          unfold WithDatabaseDirectory at hoc
          by_cases hd : dir ≠ ""
          · rw [if_pos hd] at hoc
            cases hoc
            exact ⟨id, rfl, rfl, rfl, rfl, rfl⟩
          · rw [if_neg hd] at hoc
            cases hoc
            exact ⟨id, rfl, rfl, rfl, rfl, rfl⟩
        | verbose val =>
          unfold WithVerbose at hoc
          cases hoc
          exact ⟨id, rfl, rfl, rfl, rfl, rfl⟩
      obtain ⟨s1, s2, s3, s4, s5, s6⟩ := step
      exact ⟨fun hp => i1 (s1 hp), i2.trans s2, i3.trans s3, i4.trans s4, i5.trans s5,
        i6.trans s6⟩

theorem hasLine_false (content key : String) (h : hasLine content key = false) :
    ∀ e ∈ entriesOf (scanLines content), e.1 ≠ key := by
  intro e he hk
  have : hasLine content key = true := by
    unfold hasLine fileEntries
    rw [List.any_eq_true]
    exact ⟨e, he, by simp [hk]⟩
  rw [h] at this
  cases this

theorem hasLine_true (content key : String) (h : hasLine content key = true) :
    ∃ e ∈ entriesOf (scanLines content), e.1 = key := by
  unfold hasLine fileEntries at h
  rw [List.any_eq_true] at h
  obtain ⟨e, he, hk⟩ := h
  exact ⟨e, he, by simpa using hk⟩

/-- C6: every configuration `NewConfig` returns has `Parallelism` at least 1,
whatever the file and whatever list of `WithParallelism`,
`WithDatabaseDirectory` and `WithVerbose` options is applied. -/
theorem newConfig_parallelism_ge_one (lib : Lib) (files : String → Option String)
    (path : String) (flagOptions : List ConfigOption) (c : Config)
    (hflags : ∀ o ∈ flagOptions, IsFlagOption o)
    (h : NewConfig lib files path flagOptions = Except.ok c) : 1 ≤ c.Parallelism := by
  obtain ⟨content, st, c1, proxy, _, hp, _, _, _, ha, _, _, rfl⟩ :=
    (NewConfig_ok_iff lib files path flagOptions c).mp h
  obtain ⟨_, _, _, _, e5, _⟩ := parseLines_effect lib _ _ _ hp
  obtain ⟨a1, _⟩ := applyOptions_flags flagOptions _ _ hflags ha
  obtain ⟨_, _, _, d4, _⟩ := defaultLockFile_fields c1
  show 1 ≤ (defaultLockFile c1).Parallelism
  rw [d4]
  exact a1 (e5 (le_refl (1 : Int)))

theorem newConfig_parallelism_ge_one_witness :
    NewConfig exampleLib (singleFile "/etc/GeoIP.conf" exampleFile) "/etc/GeoIP.conf"
        [WithDatabaseDirectory "", WithParallelism 0, WithVerbose false]
        = Except.ok exampleConfig ∧ 1 ≤ exampleConfig.Parallelism :=
  ⟨by decide, newConfig_parallelism_ge_one exampleLib
    (singleFile "/etc/GeoIP.conf" exampleFile) "/etc/GeoIP.conf"
    [WithDatabaseDirectory "", WithParallelism 0, WithVerbose false] exampleConfig
    (by
      intro o ho
      simp only [List.mem_cons, List.mem_singleton, List.not_mem_nil, or_false] at ho
      rcases ho with rfl | rfl | rfl
      · exact IsFlagOption.databaseDirectory ""
      · exact IsFlagOption.parallelism 0
      · exact IsFlagOption.verbose false)
    (by decide)⟩

/-- C7: for an accepted file with no `Parallelism`, no `RetryFor` and no
`PreserveFileTimes` line, and no flag options, the configuration has
`Parallelism = 1`, `RetryFor` = 5 minutes (in nanoseconds) and
`PreserveFileTimes = false`. -/
theorem newConfig_defaults (lib : Lib) (files : String → Option String) (path : String)
    (content : String) (c : Config)
    (hfile : files (filepathClean path) = some content)
    (hP : hasLine content "Parallelism" = false)
    (hR : hasLine content "RetryFor" = false)
    (hT : hasLine content "PreserveFileTimes" = false)
    (h : NewConfig lib files path [] = Except.ok c) :
    c.Parallelism = 1 ∧ c.RetryFor = 5 * 60 * 1000000000 ∧ c.PreserveFileTimes = false := by
  obtain ⟨content1, st, c1, proxy, hf, hp, _, _, _, ha, _, _, rfl⟩ :=
    (NewConfig_ok_iff lib files path [] c).mp h
  rw [hfile] at hf
  cases hf
  simp only [applyOptions] at ha
  cases ha
  obtain ⟨_, _, _, e4, _, e6, e7, _⟩ := parseLines_effect lib _ _ _ hp
  obtain ⟨_, _, _, d4, d5, d6, _⟩ := defaultLockFile_fields st.config
  refine ⟨?_, ?_, ?_⟩
  · show (defaultLockFile st.config).Parallelism = 1
    rw [d4, e4 (hasLine_false _ _ hP)]
    rfl
  · show (defaultLockFile st.config).RetryFor = 5 * 60 * 1000000000
    rw [d5, e6 (hasLine_false _ _ hR)]
    rfl
  · show (defaultLockFile st.config).PreserveFileTimes = false
    rw [d6, e7 (hasLine_false _ _ hT)]
    rfl

theorem newConfig_defaults_witness :
    NewConfig exampleLib (singleFile "/etc/GeoIP.conf" exampleFile) "/etc/GeoIP.conf" []
        = Except.ok exampleConfig ∧
      exampleConfig.Parallelism = 1 ∧ exampleConfig.RetryFor = 5 * 60 * 1000000000 ∧
      exampleConfig.PreserveFileTimes = false :=
  ⟨by decide, newConfig_defaults exampleLib (singleFile "/etc/GeoIP.conf" exampleFile)
    "/etc/GeoIP.conf" exampleFile exampleConfig (by decide) (by decide) (by decide) (by decide)
    (by decide)⟩

/-- C8 as stated fails: `exampleFile` is accepted and has no `LockFile` line,
yet the lock file is `/tmp/db/.geoipupdate.lock`, not `/tmp/db/.lock`. -/
theorem newConfig_lockFile_not_dot_lock :
    NewConfig exampleLib (singleFile "/etc/GeoIP.conf" exampleFile) "/etc/GeoIP.conf" []
        = Except.ok exampleConfig ∧
      hasLine exampleFile "LockFile" = false ∧
      exampleConfig.DatabaseDirectory = "/tmp/db" ∧
      exampleConfig.LockFile ≠ exampleConfig.DatabaseDirectory ++ "/.lock" ∧
      exampleConfig.LockFile ≠ filepathJoin exampleConfig.DatabaseDirectory ".lock" := by
  decide

/-- C8, amended: for an accepted file with no `LockFile` line, whatever
exported flag options are applied, the lock file is the file
`.geoipupdate.lock` of the returned `DatabaseDirectory`
(`filepath.Join(DatabaseDirectory, ".geoipupdate.lock")`). -/
theorem newConfig_default_lockFile (lib : Lib) (files : String → Option String)
    (path : String) (content : String) (flagOptions : List ConfigOption) (c : Config)
    (hfile : files (filepathClean path) = some content)
    (hflags : ∀ o ∈ flagOptions, IsFlagOption o)
    (hL : hasLine content "LockFile" = false)
    (h : NewConfig lib files path flagOptions = Except.ok c) :
    c.LockFile = filepathJoin c.DatabaseDirectory ".geoipupdate.lock" := by
  obtain ⟨content1, st, c1, proxy, hf, hp, _, _, _, ha, _, _, rfl⟩ :=
    (NewConfig_ok_iff lib files path flagOptions c).mp h
  rw [hfile] at hf
  cases hf
  obtain ⟨_, _, _, _, _, _, _, e8, _⟩ := parseLines_effect lib _ _ _ hp
  obtain ⟨_, a2, _⟩ := applyOptions_flags flagOptions _ _ hflags ha
  obtain ⟨_, _, d3, _, _, _, d7⟩ := defaultLockFile_fields c1
  have hempty : c1.LockFile = "" := by
    rw [a2, e8 (hasLine_false _ _ hL)]
    rfl
  show (defaultLockFile c1).LockFile =
    filepathJoin (defaultLockFile c1).DatabaseDirectory ".geoipupdate.lock"
  rw [d7, d3, if_pos hempty]

theorem newConfig_default_lockFile_witness :
    NewConfig exampleLib (singleFile "/etc/GeoIP.conf" exampleFile) "/etc/GeoIP.conf" []
        = Except.ok exampleConfig ∧
      exampleConfig.LockFile = filepathJoin exampleConfig.DatabaseDirectory ".geoipupdate.lock" :=
  ⟨by decide, newConfig_default_lockFile exampleLib (singleFile "/etc/GeoIP.conf" exampleFile)
    "/etc/GeoIP.conf" exampleFile [] exampleConfig (by decide)
    (fun o ho => absurd ho (List.not_mem_nil o)) (by decide) (by decide)⟩

theorem applyOptions_withDatabaseDirectory (dir : String) (c : Config) :
    applyOptions [WithDatabaseDirectory dir] c =
      Except.ok (if dir ≠ "" then { c with DatabaseDirectory := filepathClean dir } else c) := by
  unfold applyOptions WithDatabaseDirectory
  by_cases hd : dir ≠ ""
  · simp only [if_pos hd, applyOptions]
  · simp only [if_neg hd, applyOptions]

/-- C9: for a file `NewConfig` accepts, `NewConfig` with
`WithDatabaseDirectory dir` also returns a configuration; when `dir` is not
empty its `DatabaseDirectory` is `filepath.Clean dir` whatever the file says,
and with no `LockFile` line its lock file is `.geoipupdate.lock` joined to that
directory; when `dir` is empty the configuration is the one returned without
the flag, whose directory is the cleaned value of the file's
`DatabaseDirectory` line, or the cleaned built-in default without such a
line. -/
theorem newConfig_withDatabaseDirectory (lib : Lib) (files : String → Option String)
    (path : String) (content : String) (dir : String) (c0 : Config)
    (hfile : files (filepathClean path) = some content)
    (h0 : NewConfig lib files path [] = Except.ok c0) :
    ∃ c, NewConfig lib files path [WithDatabaseDirectory dir] = Except.ok c ∧
      (dir ≠ "" → c.DatabaseDirectory = filepathClean dir ∧
        (hasLine content "LockFile" = false →
          c.LockFile = filepathJoin (filepathClean dir) ".geoipupdate.lock")) ∧
      (dir = "" → c = c0 ∧
        c.DatabaseDirectory =
          (match fileValue content "DatabaseDirectory" with
           | some v => filepathClean v
           | none => filepathClean lib.DefaultDatabaseDirectory)) := by
  obtain ⟨content1, st, c1, proxy, hf, hp, k1, k2, k3, ha, hx, hcred, rfl⟩ :=
    (NewConfig_ok_iff lib files path [] c0).mp h0
  rw [hfile] at hf
  cases hf
  simp only [applyOptions] at ha
  cases ha
  obtain ⟨_, _, _, _, _, _, _, e8, e9⟩ := parseLines_effect lib _ _ _ hp
  by_cases hd : dir ≠ ""
  · refine ⟨{ defaultLockFile { st.config with DatabaseDirectory := filepathClean dir } with
        Proxy := proxy }, ?_, ?_, ?_⟩
    · refine (NewConfig_ok_iff lib files path _ _).mpr
        ⟨content, st, { st.config with DatabaseDirectory := filepathClean dir }, proxy,
          hfile, hp, k1, k2, k3, ?_, hx, hcred, rfl⟩
      rw [applyOptions_withDatabaseDirectory, if_pos hd]
    · intro _
      obtain ⟨_, _, d3, _, _, _, d7⟩ :=
        defaultLockFile_fields { st.config with DatabaseDirectory := filepathClean dir }
      refine ⟨d3, ?_⟩
      intro hL
      have hempty : st.config.LockFile = "" := by
        rw [e8 (hasLine_false _ _ hL)]
        rfl
      show (defaultLockFile { st.config with DatabaseDirectory := filepathClean dir }).LockFile
        = filepathJoin (filepathClean dir) ".geoipupdate.lock"
      rw [d7]
      exact if_pos hempty
    · intro he
      exact absurd he hd
  · refine ⟨{ defaultLockFile st.config with Proxy := proxy }, ?_, ?_, ?_⟩
    · refine (NewConfig_ok_iff lib files path _ _).mpr
        ⟨content, st, st.config, proxy, hfile, hp, k1, k2, k3, ?_, hx, hcred, rfl⟩
      rw [applyOptions_withDatabaseDirectory, if_neg hd]
    · intro he
      exact absurd he hd
    · intro _
      refine ⟨rfl, ?_⟩
      obtain ⟨_, _, d3, _⟩ := defaultLockFile_fields st.config
      show (defaultLockFile st.config).DatabaseDirectory = _
      rw [d3, e9]
      rfl

theorem newConfig_withDatabaseDirectory_witness :
    NewConfig exampleLib (singleFile "/etc/GeoIP.conf" exampleFile) "/etc/GeoIP.conf" []
        = Except.ok exampleConfig ∧
      NewConfig exampleLib (singleFile "/etc/GeoIP.conf" exampleFile) "/etc/GeoIP.conf"
        [WithDatabaseDirectory "/srv/./geoip/"]
        = Except.ok { exampleConfig with
            DatabaseDirectory := "/srv/geoip", LockFile := "/srv/geoip/.geoipupdate.lock" } ∧
      ∃ c, NewConfig exampleLib (singleFile "/etc/GeoIP.conf" exampleFile) "/etc/GeoIP.conf"
          [WithDatabaseDirectory "/srv/./geoip/"] = Except.ok c ∧
        c.DatabaseDirectory = filepathClean "/srv/./geoip/" :=
  ⟨by decide, by decide,
    (newConfig_withDatabaseDirectory exampleLib (singleFile "/etc/GeoIP.conf" exampleFile)
      "/etc/GeoIP.conf" exampleFile "/srv/./geoip/" exampleConfig (by decide) (by decide)).imp
      fun _ hc => ⟨hc.1, (hc.2.1 (by decide)).1⟩⟩

/-- After an accepted run of the loop over a whole file, which of the three
mandatory keys are in `keysSeen`. -/
theorem keysSeen_mandatory (lib : Lib) (content : String) (st : ParseState)
    (hp : parseLines lib (scanLines content) (initState lib) = Except.ok st) :
    ("EditionIDs" ∈ st.keysSeen ↔
      (hasLine content "EditionIDs" = true ∨ hasLine content "ProductIds" = true)) ∧
    ("AccountID" ∈ st.keysSeen ↔
      (hasLine content "AccountID" = true ∨ hasLine content "UserId" = true)) ∧
    ("LicenseKey" ∈ st.keysSeen ↔ hasLine content "LicenseKey" = true) := by
  obtain ⟨e1, _, e3, _⟩ := parseLines_effect lib _ _ _ hp
  have hmem : ∀ (e : String × String) (key : String), e ∈ entriesOf (scanLines content) →
      e.1 = key → hasLine content key = true := by
    intro e key he hk
    unfold hasLine fileEntries
    rw [List.any_eq_true]
    exact ⟨e, he, by simp [hk]⟩
  have hnil : ∀ k : String, ¬ k ∈ (initState lib).keysSeen := fun k hk => by cases hk
  refine ⟨⟨?_, ?_⟩, ⟨?_, ?_⟩, ⟨?_, ?_⟩⟩
  · intro hk
    rcases e1 _ hk with h | ⟨e, he, hm⟩
    · exact absurd h (hnil _)
    · rcases hm with h | ⟨_, h⟩ | ⟨h | h, _⟩
      · exact Or.inl (hmem e _ he h.symm)
      · exact absurd h (by decide)
      · exact Or.inl (hmem e _ he h)
      · exact Or.inr (hmem e _ he h)
  · intro h
    rcases h with h | h
    · obtain ⟨e, he, hk⟩ := hasLine_true _ _ h
      exact e3 e he _ (Or.inl hk.symm)
    · obtain ⟨e, he, hk⟩ := hasLine_true _ _ h
      exact e3 e he _ (Or.inr (Or.inr ⟨Or.inr hk, Or.inl rfl⟩))
  · intro hk
    rcases e1 _ hk with h | ⟨e, he, hm⟩
    · exact absurd h (hnil _)
    · rcases hm with h | ⟨h | h, _⟩ | ⟨_, h⟩
      · exact Or.inl (hmem e _ he h.symm)
      · exact Or.inl (hmem e _ he h)
      · exact Or.inr (hmem e _ he h)
      · exact absurd h (by decide)
  · intro h
    rcases h with h | h
    · obtain ⟨e, he, hk⟩ := hasLine_true _ _ h
      exact e3 e he _ (Or.inl hk.symm)
    · obtain ⟨e, he, hk⟩ := hasLine_true _ _ h
      exact e3 e he _ (Or.inr (Or.inl ⟨Or.inr hk, Or.inl rfl⟩))
  · intro hk
    rcases e1 _ hk with h | ⟨e, he, hm⟩
    · exact absurd h (hnil _)
    · rcases hm with h | ⟨_, h⟩ | ⟨_, h⟩
      · exact hmem e _ he h.symm
      · exact absurd h (by decide)
      · exact absurd h (by decide)
  · intro h
    obtain ⟨e, he, hk⟩ := hasLine_true _ _ h
    exact e3 e he _ (Or.inl hk.symm)

/-- C10: whatever options are passed, `NewConfig` returns an error (and so no
configuration) for a file with no edition line (neither `EditionIDs` nor
`ProductIds`), or no account line (neither `AccountID` nor `UserId`), or no
`LicenseKey` line; and when the scanning loop accepts the file, each of the
three checks on `keysSeen` passes exactly when the file has a line for it under
either spelling. -/
theorem newConfig_mandatory (lib : Lib) (files : String → Option String) (path : String)
    (content : String) (flagOptions : List ConfigOption)
    (hfile : files (filepathClean path) = some content) :
    (((hasLine content "EditionIDs" = false ∧ hasLine content "ProductIds" = false) ∨
        (hasLine content "AccountID" = false ∧ hasLine content "UserId" = false) ∨
        hasLine content "LicenseKey" = false) →
      ∃ e, NewConfig lib files path flagOptions = Except.error e) ∧
    (∀ st, parseLines lib (scanLines content) (initState lib) = Except.ok st →
      ("EditionIDs" ∈ st.keysSeen ↔
        (hasLine content "EditionIDs" = true ∨ hasLine content "ProductIds" = true)) ∧
      ("AccountID" ∈ st.keysSeen ↔
        (hasLine content "AccountID" = true ∨ hasLine content "UserId" = true)) ∧
      ("LicenseKey" ∈ st.keysSeen ↔ hasLine content "LicenseKey" = true)) := by
  refine ⟨?_, fun st hp => keysSeen_mandatory lib content st hp⟩
  intro hmiss
  cases hr : NewConfig lib files path flagOptions with
  | error e => exact ⟨e, rfl⟩
  | ok c =>
    exfalso
    obtain ⟨content1, st, c1, proxy, hf, hp, k1, k2, k3, _⟩ :=
      (NewConfig_ok_iff lib files path flagOptions c).mp hr
    rw [hfile] at hf
    cases hf
    obtain ⟨m1, m2, m3⟩ := keysSeen_mandatory lib content st hp
    rcases hmiss with ⟨h1, h2⟩ | ⟨h1, h2⟩ | h1
    · rcases m1.mp k1 with h | h
      · rw [h1] at h; cases h
      · rw [h2] at h; cases h
    · rcases m2.mp k2 with h | h
      · rw [h1] at h; cases h
      · rw [h2] at h; cases h
    · have h := m3.mp k3
      rw [h1] at h; cases h

theorem newConfig_mandatory_witness :
    (∃ e, NewConfig exampleLib
        (singleFile "/etc/GeoIP.conf" "UserId 42\nProductIds GeoLite2-City\n")
        "/etc/GeoIP.conf" [WithDatabaseDirectory "/srv/geoip", WithParallelism 2]
        = Except.error e) ∧
      NewConfig exampleLib
        (singleFile "/etc/GeoIP.conf" "UserId 42\nProductIds GeoLite2-City\n")
        "/etc/GeoIP.conf" [] = Except.error ConfigError.licenseKeyRequired ∧
      ∃ c, NewConfig exampleLib
        (singleFile "/etc/GeoIP.conf" "UserId 42\nProductIds GeoLite2-City\nLicenseKey abc\n")
        "/etc/GeoIP.conf" [] = Except.ok c :=
  ⟨(newConfig_mandatory exampleLib
      (singleFile "/etc/GeoIP.conf" "UserId 42\nProductIds GeoLite2-City\n") "/etc/GeoIP.conf"
      "UserId 42\nProductIds GeoLite2-City\n"
      [WithDatabaseDirectory "/srv/geoip", WithParallelism 2] (by decide)).1
      (Or.inr (Or.inr (by decide))),
    by decide,
    ⟨{ exampleConfig with
        EditionIDs := ["GeoLite2-City"],
        DatabaseDirectory := "/usr/local/share/GeoIP",
        LockFile := "/usr/local/share/GeoIP/.geoipupdate.lock" }, by decide⟩⟩

/-- What one `switch key` round does to the credentials and the file times. -/
theorem switchKey_record (lib : Lib) (st st1 : ParseState) (n : Nat) (key value : String)
    (h : switchKey lib st n key value = Except.ok st1) :
    st1.config.LicenseKey = (if key = "LicenseKey" then value else st.config.LicenseKey) ∧
      (if key = "AccountID" ∨ key = "UserId" then Atoi value = some st1.config.AccountID
       else st1.config.AccountID = st.config.AccountID) ∧
      (key = "PreserveFileTimes" → value = "0" ∨ value = "1") ∧
      (st1.config.PreserveFileTimes = true ↔
        (st.config.PreserveFileTimes = true ∨ (key = "PreserveFileTimes" ∧ value = "1"))) := by
  unfold switchKey at h
  by_cases h1 : key = "AccountID" ∨ key = "UserId"
  · rw [if_pos h1] at h
    cases hA : Atoi value with
    | none => rw [hA] at h; cases h
    | some a =>
      rw [hA] at h
      cases h
      rcases h1 with rfl | rfl <;> refine ⟨?_, ?_, ?_, ?_⟩ <;> simp
  rw [if_neg h1] at h
  rw [if_neg h1]
  by_cases h2 : key = "DatabaseDirectory"
  · rw [if_pos h2] at h
    cases h
    subst h2
    refine ⟨?_, ?_, ?_, ?_⟩ <;> simp
  rw [if_neg h2] at h
  by_cases h3 : key = "EditionIDs" ∨ key = "ProductIds"
  · rw [if_pos h3] at h
    cases h
    rcases h3 with rfl | rfl <;> refine ⟨?_, ?_, ?_, ?_⟩ <;> simp
  rw [if_neg h3] at h
  by_cases h4 : key = "Host"
  · rw [if_pos h4] at h
    cases h
    subst h4
    refine ⟨?_, ?_, ?_, ?_⟩ <;> simp
  rw [if_neg h4] at h
  by_cases h5 : key = "LicenseKey"
  · rw [if_pos h5] at h
    cases h
    subst h5
    refine ⟨?_, ?_, ?_, ?_⟩ <;> simp
  rw [if_neg h5] at h
  by_cases h6 : key = "LockFile"
  · rw [if_pos h6] at h
    cases h
    subst h6
    refine ⟨?_, ?_, ?_, ?_⟩ <;> simp
  rw [if_neg h6] at h
  by_cases h7 : key = "PreserveFileTimes"
  · rw [if_pos h7] at h
    subst h7
    by_cases hv : value ≠ "0" ∧ value ≠ "1"
    · rw [if_pos hv] at h; cases h
    rw [if_neg hv] at h
    by_cases hv1 : value = "1"
    · rw [if_pos hv1] at h
      cases h
      refine ⟨?_, ?_, ?_, ?_⟩ <;> simp [hv1]
    · rw [if_neg hv1] at h
      cases h
      refine ⟨?_, ?_, ?_, ?_⟩ <;> simp [hv1]
      by_contra h0
      exact hv ⟨h0, hv1⟩
  rw [if_neg h7] at h
  by_cases h8 : key = "Proxy"
  · rw [if_pos h8] at h
    cases h
    subst h8
    refine ⟨?_, ?_, ?_, ?_⟩ <;> simp
  rw [if_neg h8] at h
  by_cases h9 : key = "ProxyUserPassword"
  · rw [if_pos h9] at h
    cases h
    subst h9
    refine ⟨?_, ?_, ?_, ?_⟩ <;> simp
  rw [if_neg h9] at h
  by_cases h10 : key = "Protocol" ∨ key = "SkipHostnameVerification" ∨
      key = "SkipPeerVerification"
  · rw [if_pos h10] at h
    cases h
    rcases h10 with rfl | rfl | rfl <;> refine ⟨?_, ?_, ?_, ?_⟩ <;> simp
  rw [if_neg h10] at h
  by_cases h11 : key = "RetryFor"
  · rw [if_pos h11] at h
    subst h11
    cases hD : lib.ParseDuration value with
    | none => rw [hD] at h; cases h
    | some dur =>
      rw [hD] at h
      dsimp only at h
      by_cases hneg : dur < 0
      · rw [if_pos hneg] at h; cases h
      · rw [if_neg hneg] at h
        cases h
        refine ⟨?_, ?_, ?_, ?_⟩ <;> simp
  rw [if_neg h11] at h
  by_cases h12 : key = "Parallelism"
  · rw [if_pos h12] at h
    subst h12
    cases hA : Atoi value with
    | none => rw [hA] at h; cases h
    | some p =>
      rw [hA] at h
      dsimp only at h
      by_cases hp : p ≤ 0
      · rw [if_pos hp] at h; cases h
      · rw [if_neg hp] at h
        cases h
        refine ⟨?_, ?_, ?_, ?_⟩ <;> simp
  · rw [if_neg h12] at h; cases h

theorem parseLine_record (lib : Lib) (st st1 : ParseState) (text : List Char)
    (h : parseLine lib st text = Except.ok st1) : LineRecord st st1 (keyValue text) := by
  rcases parseLine_ok lib st st1 text h with ⟨hkv, rfl⟩ | ⟨key, value, hkv, hnew, hs⟩
  · rw [hkv]
    refine ⟨rfl, rfl, ?_, ?_, ?_⟩
    · intro e he; cases he
    · constructor
      · intro hp; exact Or.inl hp
      · intro hp
        rcases hp with hp | hp
        · exact hp
        · cases hp
    · intro e he; cases he
  · rw [hkv]
    obtain ⟨r1, r2, r3, r4⟩ := switchKey_record lib _ st1 _ key value hs
    refine ⟨r1, r2, ?_, ?_, ?_⟩
    · intro e he hk
      cases he
      exact r3 hk
    · rw [r4]
      constructor
      · intro hp
        rcases hp with hp | ⟨hk, hv⟩
        · exact Or.inl hp
        · exact Or.inr (by rw [hk, hv])
      · intro hp
        rcases hp with hp | hp
        · exact Or.inl hp
        · cases hp
          exact Or.inr ⟨rfl, rfl⟩
    · intro e he
      cases he
      exact hnew

theorem linesRecord_nil (st : ParseState) : LinesRecord st st [] := by
  refine ⟨rfl, rfl, fun _ he => absurd he (List.not_mem_nil _), ?_, List.Pairwise.nil,
    fun _ he => absurd he (List.not_mem_nil _)⟩
  constructor
  · intro hp; exact Or.inl hp
  · intro hp
    rcases hp with hp | hp
    · exact hp
    · exact absurd hp (List.not_mem_nil _)

/-- Composition of the record of a line without key and value with the record
of the lines after it. -/
theorem linesRecord_skip (st st1 st2 : ParseState) (es : List (String × String))
    (h0 : LineEffect st st1 none) (h1 : LineRecord st st1 none)
    (h2 : LinesRecord st1 st2 es) : LinesRecord st st2 es := by
  obtain ⟨_, a2, _⟩ := h0
  obtain ⟨r1, r2, _, r4, _⟩ := h1
  obtain ⟨b1, b2, b3, b4, b5, b6⟩ := h2
  simp only at r1 r2
  refine ⟨?_, ?_, b3, ?_, b5, ?_⟩
  · rw [b1, r1]
  · cases hl : lastAccount es with
    | some v => rw [hl] at b2; exact b2
    | none =>
      rw [hl] at b2
      dsimp only at b2 ⊢
      rw [b2, r2]
  · rw [b4, r4]
    constructor
    · intro hp
      rcases hp with (hp | hp) | hp
      · exact Or.inl hp
      · cases hp
      · exact Or.inr hp
    · intro hp
      rcases hp with hp | hp
      · exact Or.inl (Or.inl hp)
      · exact Or.inr hp
  · intro e he hk
    exact b6 e he (a2 _ hk)

/-- Composition of the record of a key-value line with the record of the lines
after it. -/
theorem linesRecord_cons (st st1 st2 : ParseState) (e : String × String)
    (es : List (String × String))
    (h0 : LineEffect st st1 (some e)) (h1 : LineRecord st st1 (some e))
    (h2 : LinesRecord st1 st2 es) : LinesRecord st st2 (e :: es) := by
  obtain ⟨_, a2, a3, _⟩ := h0
  obtain ⟨r1, r2, r3, r4, r5⟩ := h1
  obtain ⟨b1, b2, b3, b4, b5, b6⟩ := h2
  simp only at r1 r2
  refine ⟨?_, ?_, ?_, ?_, ?_, ?_⟩
  · rw [b1]
    simp only [lastValue]
    cases hl : lastValue es "LicenseKey" with
    | some v => rfl
    | none =>
      dsimp only
      rw [r1]
      by_cases hk : e.1 = "LicenseKey"
      · rw [if_pos hk, if_pos hk]
      · rw [if_neg hk, if_neg hk]
  · simp only [lastAccount]
    cases hl : lastAccount es with
    | some v => rw [hl] at b2; exact b2
    | none =>
      rw [hl] at b2
      dsimp only at b2 ⊢
      by_cases hk : e.1 = "AccountID" ∨ e.1 = "UserId"
      · rw [if_pos hk] at r2 ⊢
        dsimp only
        rw [b2]
        exact r2
      · rw [if_neg hk] at r2 ⊢
        dsimp only
        rw [b2, r2]
  · intro e1 he1 hk
    rcases List.mem_cons.mp he1 with rfl | he1
    · exact r3 _ rfl hk
    · exact b3 e1 he1 hk
  · rw [b4, r4]
    constructor
    · intro hp
      rcases hp with (hp | hp) | hp
      · exact Or.inl hp
      · cases hp
        exact Or.inr (List.mem_cons_self _ _)
      · exact Or.inr (List.mem_cons_of_mem _ hp)
    · intro hp
      rcases hp with hp | hp
      · exact Or.inl (Or.inl hp)
      · rcases List.mem_cons.mp hp with hp | hp
        · exact Or.inl (Or.inr (by rw [hp]))
        · exact Or.inr hp
  · refine List.Pairwise.cons ?_ b5
    intro e1 he1 hm
    exact b6 e1 he1 (a3 e rfl _ hm)
  · intro e1 he1 hk
    rcases List.mem_cons.mp he1 with rfl | he1
    · exact r5 _ rfl hk
    · exact b6 e1 he1 (a2 _ hk)

/-- The record of an accepted run of the scanning loop. -/
theorem parseLines_record (lib : Lib) (raws : List (List Char)) :
    ∀ st st1 : ParseState, parseLines lib raws st = Except.ok st1 →
      LinesRecord st st1 (entriesOf raws) := by
  induction raws with
  | nil =>
    intro st st1 h
    simp only [parseLines] at h
    cases h
    exact linesRecord_nil st
  | cons raw rest ih =>
    intro st st1 h
    simp only [parseLines] at h
    by_cases hl : tooLong raw = true
    · rw [if_pos hl] at h; cases h
    rw [if_neg hl] at h
    cases hp : parseLine lib st (dropCR raw) with
    | error e => rw [hp] at h; cases h
    | ok st0 =>
      rw [hp] at h
      have h0 := parseLine_effect lib st st0 _ hp
      have h1 := parseLine_record lib st st0 _ hp
      have h2 := ih st0 st1 h
      unfold entriesOf
      rw [List.filterMap_cons]
      cases hkv : keyValue (dropCR raw) with
      | none =>
        rw [hkv] at h0 h1
        exact linesRecord_skip st st0 st1 _ h0 h1 h2
      | some e =>
        rw [hkv] at h0 h1
        exact linesRecord_cons st st0 st1 e _ h0 h1 h2

/-- C13: `WithParallelism(i)` run on any configuration `c`: for `i > 0` it
returns no error and sets `Parallelism` to `i`; for `i = 0` it returns no error
and leaves `Parallelism` as it was; for `i < 0` it returns an error and leaves
`Parallelism` as it was; in every case all the other fields of `c` are
unchanged. The option `NewConfig` applies is this closure. -/
theorem withParallelism_call (i : Int) (c : Config) :
    (0 < i → (WithParallelism.call i c).2 = none ∧
      (WithParallelism.call i c).1.Parallelism = i) ∧
    (i = 0 → (WithParallelism.call i c).2 = none ∧
      (WithParallelism.call i c).1.Parallelism = c.Parallelism) ∧
    (i < 0 → (WithParallelism.call i c).2 = some (ConfigError.negativeParallelism i) ∧
      (WithParallelism.call i c).1 = c) ∧
    (WithParallelism.call i c).1 =
      { c with Parallelism := (WithParallelism.call i c).1.Parallelism } ∧
    WithParallelism i c =
      (match (WithParallelism.call i c).2 with
       | none => Except.ok (WithParallelism.call i c).1
       | some e => Except.error e) := by
  by_cases hneg : i < 0
  · have h1 : ¬ 0 < i := by omega
    have h2 : i ≠ 0 := by omega
    simp [WithParallelism.call, WithParallelism, hneg, h1, h2]
  · by_cases hpos : i > 0
    · have h2 : i ≠ 0 := by omega
      simp [WithParallelism.call, WithParallelism, hneg, hpos, h2]
    · have h2 : i = 0 := by omega
      subst h2
      simp [WithParallelism.call, WithParallelism]

theorem withParallelism_call_witness :
    (WithParallelism.call 4 exampleConfig).2 = none ∧
      (WithParallelism.call 4 exampleConfig).1.Parallelism = 4 ∧
      (WithParallelism.call 0 exampleConfig).1.Parallelism = 1 ∧
      (WithParallelism.call (-2) exampleConfig).2 = some (ConfigError.negativeParallelism (-2)) ∧
      (WithParallelism.call (-2) exampleConfig).1 = exampleConfig :=
  ⟨((withParallelism_call 4 exampleConfig).1 (by decide)).1,
    ((withParallelism_call 4 exampleConfig).1 (by decide)).2,
    ((withParallelism_call 0 exampleConfig).2.1 rfl).2,
    ((withParallelism_call (-2) exampleConfig).2.2.1 (by decide)).1,
    ((withParallelism_call (-2) exampleConfig).2.2.1 (by decide)).2⟩

/-- C14: a file with a `PreserveFileTimes` line whose value is neither `0` nor
`1` makes `NewConfig` return an error, whatever options are passed; and in a
configuration `NewConfig` returns (with exported flag options)
`PreserveFileTimes` is true if and only if the file has the line
`PreserveFileTimes 1`. -/
theorem newConfig_preserveFileTimes (lib : Lib) (files : String → Option String)
    (path : String) (content : String) (flagOptions : List ConfigOption)
    (hfile : files (filepathClean path) = some content) :
    (∀ value, ("PreserveFileTimes", value) ∈ fileEntries content →
      value ≠ "0" → value ≠ "1" →
      ∃ e, NewConfig lib files path flagOptions = Except.error e) ∧
    ((∀ o ∈ flagOptions, IsFlagOption o) →
      ∀ c, NewConfig lib files path flagOptions = Except.ok c →
        (c.PreserveFileTimes = true ↔ ("PreserveFileTimes", "1") ∈ fileEntries content)) := by
  constructor
  · intro value hmem h0 h1
    cases hr : NewConfig lib files path flagOptions with
    | error e => exact ⟨e, rfl⟩
    | ok c =>
      exfalso
      obtain ⟨content1, st, c1, proxy, hf, hp, _⟩ :=
        (NewConfig_ok_iff lib files path flagOptions c).mp hr
      rw [hfile] at hf
      cases hf
      obtain ⟨_, _, p3, _⟩ := parseLines_record lib _ _ _ hp
      rcases p3 _ hmem rfl with hv | hv
      · exact h0 hv
      · exact h1 hv
  · intro hflags c hr
    obtain ⟨content1, st, c1, proxy, hf, hp, _, _, _, ha, _, _, rfl⟩ :=
      (NewConfig_ok_iff lib files path flagOptions c).mp hr
    rw [hfile] at hf
    cases hf
    obtain ⟨_, _, _, p4, _⟩ := parseLines_record lib _ _ _ hp
    obtain ⟨_, _, _, _, _, a6⟩ := applyOptions_flags flagOptions _ _ hflags ha
    obtain ⟨_, _, _, _, _, d6, _⟩ := defaultLockFile_fields c1
    show (defaultLockFile c1).PreserveFileTimes = true ↔ _
    rw [d6, a6, p4]
    constructor
    · intro hp
      rcases hp with hp | hp
      · cases hp
      · exact hp
    · intro hp
      exact Or.inr hp

theorem newConfig_preserveFileTimes_witness :
    (∃ e, NewConfig exampleLib
        (singleFile "/etc/GeoIP.conf" (exampleFile ++ "PreserveFileTimes 01\n"))
        "/etc/GeoIP.conf" [] = Except.error e) ∧
      NewConfig exampleLib
        (singleFile "/etc/GeoIP.conf" (exampleFile ++ "PreserveFileTimes true\n"))
        "/etc/GeoIP.conf" [] = Except.error ConfigError.preserveFileTimes ∧
      NewConfig exampleLib
        (singleFile "/etc/GeoIP.conf" (exampleFile ++ "PreserveFileTimes yes\n"))
        "/etc/GeoIP.conf" [] = Except.error ConfigError.preserveFileTimes ∧
      NewConfig exampleLib
        (singleFile "/etc/GeoIP.conf" (exampleFile ++ "PreserveFileTimes 2\n"))
        "/etc/GeoIP.conf" [] = Except.error ConfigError.preserveFileTimes ∧
      NewConfig exampleLib
        (singleFile "/etc/GeoIP.conf" (exampleFile ++ "PreserveFileTimes 1\n"))
        "/etc/GeoIP.conf" [] = Except.ok { exampleConfig with PreserveFileTimes := true } ∧
      NewConfig exampleLib
        (singleFile "/etc/GeoIP.conf" (exampleFile ++ "PreserveFileTimes 0\n"))
        "/etc/GeoIP.conf" [] = Except.ok exampleConfig :=
  ⟨(newConfig_preserveFileTimes exampleLib
      (singleFile "/etc/GeoIP.conf" (exampleFile ++ "PreserveFileTimes 01\n"))
      "/etc/GeoIP.conf" (exampleFile ++ "PreserveFileTimes 01\n") [] (by decide)).1 "01"
      (by decide) (by decide) (by decide),
    by decide, by decide, by decide, by decide, by decide⟩

/-- On an accepted line the key is the key of the key-value pair. -/
theorem parseLine_lineKey (lib : Lib) (st st1 : ParseState) (text : List Char)
    (h : parseLine lib st text = Except.ok st1) :
    lineKey text = (keyValue text).map Prod.fst := by
  unfold parseLine at h
  unfold lineKey keyValue
  cases ht : trimSpace text with
  | nil => rfl
  | cons c line =>
    rw [ht] at h
    dsimp only at h ⊢
    by_cases hc : c = '#'
    · rw [if_pos hc, if_pos hc]; rfl
    · rw [if_neg hc] at h
      rw [if_neg hc, if_neg hc]
      cases hf : fields (c :: line) with
      | nil => rfl
      | cons key rest =>
        cases rest with
        | nil => rw [hf] at h; cases h
        | cons f1 frest => rfl

/-- After an accepted run of the loop the keys of the lines are the keys of
the key-value lines. -/
theorem parseLines_keys (lib : Lib) (raws : List (List Char)) :
    ∀ st st1 : ParseState, parseLines lib raws st = Except.ok st1 →
      keysOf raws = (entriesOf raws).map Prod.fst := by
  induction raws with
  | nil => intro _ _ _; rfl
  | cons raw rest ih =>
    intro st st1 h
    simp only [parseLines] at h
    by_cases hl : tooLong raw = true
    · rw [if_pos hl] at h; cases h
    rw [if_neg hl] at h
    cases hp : parseLine lib st (dropCR raw) with
    | error e => rw [hp] at h; cases h
    | ok st0 =>
      rw [hp] at h
      have hk := parseLine_lineKey lib st st0 _ hp
      have ih1 := ih st0 st1 h
      unfold keysOf entriesOf at ih1 ⊢
      rw [List.filterMap_cons, List.filterMap_cons, hk]
      cases hkv : keyValue (dropCR raw) with
      | none => exact ih1
      | some e =>
        dsimp only [Option.map]
        rw [List.map_cons, ih1]

/-- C12: when two lines of the file carry the same key, or the two spellings
of one aliased option (`AccountID` and `UserId`, `EditionIDs` and
`ProductIds`) in either order, `NewConfig` returns an error, whatever options
are passed. -/
theorem newConfig_duplicate_key (lib : Lib) (files : String → Option String)
    (path : String) (content : String) (flagOptions : List ConfigOption)
    (l1 l2 l3 : List String) (k k1 : String)
    (hfile : files (filepathClean path) = some content)
    (hkeys : fileKeys content = l1 ++ (k :: (l2 ++ (k1 :: l3))))
    (hsame : k1 = k ∨
      ((k = "AccountID" ∨ k = "UserId") ∧ (k1 = "AccountID" ∨ k1 = "UserId")) ∨
      ((k = "EditionIDs" ∨ k = "ProductIds") ∧ (k1 = "EditionIDs" ∨ k1 = "ProductIds"))) :
    ∃ e, NewConfig lib files path flagOptions = Except.error e := by
  cases hr : NewConfig lib files path flagOptions with
  | error e => exact ⟨e, rfl⟩
  | ok c =>
    exfalso
    obtain ⟨content1, st, c1, proxy, hf, hp, _⟩ :=
      (NewConfig_ok_iff lib files path flagOptions c).mp hr
    rw [hfile] at hf
    cases hf
    obtain ⟨_, _, _, _, p5, _⟩ := parseLines_record lib _ _ _ hp
    have hk := parseLines_keys lib _ _ _ hp
    have hpw : (fileKeys content).Pairwise (fun a b => ¬ marks a b) := by
      unfold fileKeys
      rw [hk, List.pairwise_map]
      exact p5
    rw [hkeys, List.pairwise_append] at hpw
    obtain ⟨_, hpw2, _⟩ := hpw
    rw [List.pairwise_cons] at hpw2
    exact hpw2.1 k1 (List.mem_append_right _ (List.mem_cons_self _ _)) hsame

theorem newConfig_duplicate_key_witness :
    (∃ e, NewConfig exampleLib
        (singleFile "/etc/GeoIP.conf" "UserId 42\nLicenseKey abc\nAccountID 42\nEditionIDs a\n")
        "/etc/GeoIP.conf" [] = Except.error e) ∧
      NewConfig exampleLib
        (singleFile "/etc/GeoIP.conf" "UserId 42\nLicenseKey abc\nAccountID 42\nEditionIDs a\n")
        "/etc/GeoIP.conf" [] = Except.error (ConfigError.multipleTimes "AccountID") ∧
      NewConfig exampleLib
        (singleFile "/etc/GeoIP.conf" "EditionIDs a\nProductIds a\n")
        "/etc/GeoIP.conf" [] = Except.error (ConfigError.multipleTimes "ProductIds") ∧
      NewConfig exampleLib
        (singleFile "/etc/GeoIP.conf" "LicenseKey abc\nLicenseKey abc\n")
        "/etc/GeoIP.conf" [] = Except.error (ConfigError.multipleTimes "LicenseKey") :=
  ⟨newConfig_duplicate_key exampleLib
      (singleFile "/etc/GeoIP.conf" "UserId 42\nLicenseKey abc\nAccountID 42\nEditionIDs a\n")
      "/etc/GeoIP.conf" "UserId 42\nLicenseKey abc\nAccountID 42\nEditionIDs a\n" []
      [] ["LicenseKey"] ["EditionIDs"] "UserId" "AccountID" (by decide) (by decide)
      (Or.inr (Or.inl ⟨Or.inr rfl, Or.inl rfl⟩)),
    by decide, by decide, by decide⟩

theorem lastAccount_of_mem (es : List (String × String)) (e : String × String)
    (he : e ∈ es) (hk : e.1 = "AccountID" ∨ e.1 = "UserId") :
    ∃ v, lastAccount es = some v := by
  induction es with
  | nil => cases he
  | cons e0 rest ih =>
    simp only [lastAccount]
    cases hl : lastAccount rest with
    | some v => exact ⟨v, rfl⟩
    | none =>
      rcases List.mem_cons.mp he with rfl | he1
      · exact ⟨e.2, by simp [hk]⟩
      · obtain ⟨v, hv⟩ := ih he1
        rw [hl] at hv
        cases hv

theorem lastValue_of_mem (es : List (String × String)) (key : String)
    (e : String × String) (he : e ∈ es) (hk : e.1 = key) :
    ∃ v, lastValue es key = some v := by
  induction es with
  | nil => cases he
  | cons e0 rest ih =>
    simp only [lastValue]
    cases hl : lastValue rest key with
    | some v => exact ⟨v, rfl⟩
    | none =>
      rcases List.mem_cons.mp he with rfl | he1
      · exact ⟨e.2, by simp [hk]⟩
      · obtain ⟨v, hv⟩ := ih he1
        rw [hl] at hv
        cases hv

/-- The result of `NewConfig` once every step before the credentials check has
succeeded. -/
theorem NewConfig_of_steps (lib : Lib) (files : String → Option String) (path : String)
    (content : String) (flagOptions : List ConfigOption) (st : ParseState) (c1 : Config)
    (proxy : Option URL)
    (hfile : files (filepathClean path) = some content)
    (hp : parseLines lib (scanLines content) (initState lib) = Except.ok st)
    (hE : "EditionIDs" ∈ st.keysSeen) (hA : "AccountID" ∈ st.keysSeen)
    (hL : "LicenseKey" ∈ st.keysSeen)
    (ha : applyOptions flagOptions st.config = Except.ok c1)
    (hx : parseProxy lib st.proxy st.proxyUserPassword = Except.ok proxy) :
    NewConfig lib files path flagOptions =
      (if (c1.AccountID = 0 ∨ c1.AccountID = 999999) ∧ c1.LicenseKey = "000000000000" then
        Except.error ConfigError.invalidCredentials
       else Except.ok { defaultLockFile c1 with Proxy := proxy }) := by
  obtain ⟨d1, d2, -⟩ := defaultLockFile_fields c1
  unfold NewConfig
  rw [hfile]
  dsimp only
  rw [hp]
  dsimp only
  rw [if_neg (not_not.mpr hE), if_neg (not_not.mpr hA), if_neg (not_not.mpr hL), ha]
  dsimp only
  rw [hx]
  dsimp only
  rw [d1, d2]

/-- C11: for a file that passes every other step of `NewConfig` (the scanning
loop, the three mandatory keys, the exported flag options, the proxy), with
account id `a` parsed from its account line and license key `lic` from its
`LicenseKey` line: `NewConfig` returns the credentials error when `lic` is
`000000000000` and `a` is 0 or 999999, and otherwise returns a configuration
with that account id and license key. -/
theorem newConfig_placeholder_credentials (lib : Lib) (files : String → Option String)
    (path : String) (content : String) (flagOptions : List ConfigOption) (st : ParseState)
    (c1 : Config) (proxy : Option URL)
    (hfile : files (filepathClean path) = some content)
    (hflags : ∀ o ∈ flagOptions, IsFlagOption o)
    (hp : parseLines lib (scanLines content) (initState lib) = Except.ok st)
    (hE : "EditionIDs" ∈ st.keysSeen) (hA : "AccountID" ∈ st.keysSeen)
    (hL : "LicenseKey" ∈ st.keysSeen)
    (ha : applyOptions flagOptions st.config = Except.ok c1)
    (hx : parseProxy lib st.proxy st.proxyUserPassword = Except.ok proxy) :
    ∃ v a lic, lastAccount (fileEntries content) = some v ∧ Atoi v = some a ∧
      fileValue content "LicenseKey" = some lic ∧
      (((a = 0 ∨ a = 999999) ∧ lic = "000000000000") →
        NewConfig lib files path flagOptions = Except.error ConfigError.invalidCredentials) ∧
      (¬((a = 0 ∨ a = 999999) ∧ lic = "000000000000") →
        ∃ c, NewConfig lib files path flagOptions = Except.ok c ∧
          c.AccountID = a ∧ c.LicenseKey = lic) := by
  obtain ⟨r1, r2, _⟩ := parseLines_record lib _ _ _ hp
  obtain ⟨_, m2, m3⟩ := keysSeen_mandatory lib content st hp
  obtain ⟨_, _, a3, a4, _⟩ := applyOptions_flags flagOptions _ _ hflags ha
  have hres := NewConfig_of_steps lib files path content flagOptions st c1 proxy hfile hp
    hE hA hL ha hx
  have hacc : ∃ v, lastAccount (entriesOf (scanLines content)) = some v := by
    rcases m2.mp hA with h | h
    · obtain ⟨e, he, hk⟩ := hasLine_true _ _ h
      exact lastAccount_of_mem _ e he (Or.inl hk)
    · obtain ⟨e, he, hk⟩ := hasLine_true _ _ h
      exact lastAccount_of_mem _ e he (Or.inr hk)
  have hlic : ∃ lic, lastValue (entriesOf (scanLines content)) "LicenseKey" = some lic := by
    obtain ⟨e, he, hk⟩ := hasLine_true _ _ (m3.mp hL)
    exact lastValue_of_mem _ _ e he hk
  obtain ⟨v, hv⟩ := hacc
  obtain ⟨lic, hlic⟩ := hlic
  rw [hv] at r2
  rw [hlic] at r1
  dsimp only at r1 r2
  rw [a3, a4, r1] at hres
  refine ⟨v, st.config.AccountID, lic, hv, r2, hlic, ?_, ?_⟩
  · intro hc
    rw [hres, if_pos hc]
  · intro hc
    rw [hres, if_neg hc]
    obtain ⟨d1, d2, -⟩ := defaultLockFile_fields c1
    refine ⟨_, rfl, ?_, ?_⟩
    · show (defaultLockFile c1).AccountID = _
      rw [d1, a3]
    · show (defaultLockFile c1).LicenseKey = _
      rw [d2, a4, r1]

theorem newConfig_placeholder_credentials_witness :
    parseLines exampleLib (scanLines placeholderFile) (initState exampleLib)
        = Except.ok placeholderState ∧
      NewConfig exampleLib (singleFile "/etc/GeoIP.conf" placeholderFile) "/etc/GeoIP.conf" []
        = Except.error ConfigError.invalidCredentials ∧
      (∃ c, NewConfig exampleLib
        (singleFile "/etc/GeoIP.conf"
          "AccountID 999999\nLicenseKey 000000000001\nEditionIDs GeoLite2-City\n")
        "/etc/GeoIP.conf" [] = Except.ok c) ∧
      (∃ c, NewConfig exampleLib
        (singleFile "/etc/GeoIP.conf"
          "AccountID 42\nLicenseKey 000000000000\nEditionIDs GeoLite2-City\n")
        "/etc/GeoIP.conf" [] = Except.ok c) ∧
      ∃ v a lic, lastAccount (fileEntries placeholderFile) = some v ∧ Atoi v = some a ∧
        fileValue placeholderFile "LicenseKey" = some lic ∧
        (((a = 0 ∨ a = 999999) ∧ lic = "000000000000") →
          NewConfig exampleLib (singleFile "/etc/GeoIP.conf" placeholderFile)
            "/etc/GeoIP.conf" [] = Except.error ConfigError.invalidCredentials) ∧
        (¬((a = 0 ∨ a = 999999) ∧ lic = "000000000000") →
          ∃ c, NewConfig exampleLib (singleFile "/etc/GeoIP.conf" placeholderFile)
            "/etc/GeoIP.conf" [] = Except.ok c ∧ c.AccountID = a ∧ c.LicenseKey = lic) :=
  ⟨by decide, by decide,
    ⟨{ placeholderState.config with
        LicenseKey := "000000000001",
        LockFile := "/usr/local/share/GeoIP/.geoipupdate.lock" }, by decide⟩,
    ⟨{ placeholderState.config with
        AccountID := 42,
        LockFile := "/usr/local/share/GeoIP/.geoipupdate.lock" }, by decide⟩,
    newConfig_placeholder_credentials exampleLib
      (singleFile "/etc/GeoIP.conf" placeholderFile) "/etc/GeoIP.conf" placeholderFile []
      placeholderState placeholderState.config none (by decide)
      (fun o ho => absurd ho (List.not_mem_nil o)) (by decide) (by decide) (by decide)
      (by decide) rfl (by decide)⟩

end geoipupdate
